import Mathlib

/-!
Verification of the Faturamento_Python_Monitoria reconciliation pipeline.

This file gives a shallow embedding, in Lean 4, of the parts of the
repository that the specification's claims talk about:

* `src/src/domain/entities.py` — monetary conversion `_to_decimal` and the
  refined dataclasses;
* `src/src/domain/services.py` — `BillingDomainService`: text
  normalisation, the integrity validator and the cleaners;
* `src/src/infrastructure/omie_client.py` — the logical-fault handling of
  `OmieClient.request`;
* `src/src/infrastructure/repositories.py` — `JsonRepository.load_dict`,
  `load_filter_set` and `update_processed_list`;
* `src/monitor_faturamento.py` — `BillingApplication`: the invoice
  indexer `_fetch_nfe_map`, the extraction loop `run_extraction` and the
  persistence step `_save_results`.

Modelling conventions: Python values flowing through the untyped JSON
payloads are embedded as the inductive `PyVal`; Python numbers (int and
float alike) are embedded as exact rationals, and `str(float)` is
modelled as an exact rational rendering; fallible Python code (key
errors, `int()`/`float()` conversion errors) is embedded with
`Except`/`Option`; `dict` is an association list where a later insert
shadows an earlier binding and lookup takes the first binding.
-/

/-- Embedding of the dynamically-typed Python/JSON values handled by the
pipeline.  `num` covers Python floats (modelled as exact rationals),
`int` covers Python ints. -/
inductive PyVal where
  | none
  | str (s : String)
  | int (n : Int)
  | num (q : ℚ)
  | list (l : List PyVal)
  | dict (d : List (String × PyVal))

/-- Association-list lookup for the `dict` payloads: first binding wins,
so that prepending a binding models a Python dict overwrite. -/
def dlookup (d : List (String × PyVal)) (k : String) : Option PyVal :=
  match d with
  | [] => Option.none
  | (k2, v) :: rest => if k2 = k then some v else dlookup rest k

/-- Python `d.get(k, default)` on an association-list dict. -/
def dget (d : List (String × PyVal)) (k : String) (dflt : PyVal) : PyVal :=
  (dlookup d k).getD dflt

/-- Decimal rendering of a natural number (kernel-friendly). -/
def natToDec (n : Nat) : String :=
  ⟨(Nat.toDigits 10 n)⟩

/-- Decimal rendering of an integer, as Python `str(int)` produces. -/
def intToDec (i : Int) : String :=
  if i < 0 then "-" ++ natToDec i.natAbs else natToDec i.natAbs

/-- Exact rendering of a rational; stands in for Python `str(float)`
(the shortest-repr subtleties of float printing are outside the claims
checked here). -/
def ratRender (q : ℚ) : String :=
  if q.den = 1 then intToDec q.num
  else intToDec q.num ++ "/" ++ natToDec q.den

/-- Python `str(value)` on embedded values.  Container rendering is
abbreviated: no claim path ever stringifies a list or a dict. -/
def pyStr (v : PyVal) : String :=
  match v with
  | .none => "None"
  | .str s => s
  | .int n => intToDec n
  | .num q => ratRender q
  | .list _ => "[...]"
  | .dict _ => "\x7b...\x7d"

/-- The whitespace characters recognised by Python `str.strip()` /
`str.split()` (the ASCII ones; the payloads carry no exotic spaces). -/
def isPySpace (c : Char) : Bool :=
  c = ' ' || c = '\t' || c = '\n' || c = '\r' || c.toNat = 11 || c.toNat = 12

/-- `str.strip()` on a character list. -/
def stripChars (l : List Char) : List Char :=
  ((l.dropWhile isPySpace).reverse.dropWhile isPySpace).reverse

/-- Python `str.strip()`. -/
def pyStrip (s : String) : String :=
  ⟨stripChars s.data⟩

/-- Python `str.lower()` restricted to the ASCII and Latin-1 letters the
ERP fault strings actually contain ('Ã' lowers to 'ã', etc.). -/
def pyLowerChar (c : Char) : Char :=
  if 'A' ≤ c && c ≤ 'Z' then Char.ofNat (c.toNat + 32)
  else if 0xC0 ≤ c.toNat && c.toNat ≤ 0xDE && c.toNat ≠ 0xD7 then
    Char.ofNat (c.toNat + 32)
  else c

/-- Python `str.lower()`. -/
def pyLower (s : String) : String :=
  ⟨s.data.map pyLowerChar⟩

/-- Does `l` start with `pat`? -/
def leadsWith (pat l : List Char) : Bool :=
  match pat, l with
  | [], _ => true
  | _ :: _, [] => false
  | p :: ps, c :: cs => p = c && leadsWith ps cs

/-- Does `l` contain `pat` as a contiguous run?  Embeds Python's
`pat in s` substring test. -/
def hasSeq (pat l : List Char) : Bool :=
  match l with
  | [] => pat.isEmpty
  | _ :: rest => leadsWith pat l || hasSeq pat rest

/-- Python `pat in hay` on strings. -/
def strContains (hay pat : String) : Bool :=
  hasSeq pat.data hay.data

/-! ### `OmieClient.request` — logical-fault handling

Embedding of `src/src/infrastructure/omie_client.py`, lines 79-92: the
portion of `request` that inspects a successfully transported JSON
response for an Omie business fault.  The HTTP transport around it is an
external collaborator and is not part of any claim. -/

/-- The fault substring that marks benign end-of-pagination. -/
def noRecordsPat : String := "não existem registros"

/-- `OmieClient.request`, logical-error branch: a response containing a
`faultstring` either maps to the safe empty page (when the fault is a
"no records" variant, case-insensitively) or raises; a response without
a `faultstring` is returned unchanged. -/
def omieRequestLogic (data : List (String × PyVal)) :
    Except String (List (String × PyVal)) :=
  match dlookup data "faultstring" with
  | some v =>
      let errorMsg := pyStr v
      if strContains (pyLower errorMsg) noRecordsPat then
        Except.ok [("total_de_paginas", PyVal.int 0), ("registros", PyVal.list [])]
      else
        Except.error ("Omie API Logical Error: " ++ errorMsg)
  | Option.none => Except.ok data

/-! ### `_to_decimal` — fixed-point monetary conversion

Embedding of `src/src/domain/entities.py`, lines 5-14. -/

/-- `Decimal.quantize(Decimal("0.01"), rounding=ROUND_HALF_UP)` expressed
in cents: round to the nearest integer number of cents, ties away from
zero. -/
def halfUpCents (q : ℚ) : Int :=
  if 0 ≤ q then ⌊q * 100 + 1 / 2⌋ else -⌊(-q) * 100 + 1 / 2⌋

/-- Quantisation of a rational to exactly two fraction digits, half-up. -/
def quant2 (q : ℚ) : ℚ :=
  (halfUpCents q : ℚ) / 100

/-- Numeric value of a (decimal) digit character. -/
def digitVal (c : Char) : Option Nat :=
  if '0' ≤ c && c ≤ '9' then some (c.toNat - '0'.toNat) else Option.none

/-- Leading run of digit characters, as numeric values, plus the rest. -/
def takeDigits : List Char → (List Nat × List Char)
  | [] => ([], [])
  | c :: rest =>
      match digitVal c with
      | some d =>
          let (ds, rem) := takeDigits rest
          (d :: ds, rem)
      | Option.none => ([], c :: rest)

/-- Value of a digit-value list read as a base-10 numeral. -/
def digitsToNat (ds : List Nat) : Nat :=
  ds.foldl (fun acc d => 10 * acc + d) 0

/-- Parse an optional sign, returning the sign and the rest. -/
def takeSign (l : List Char) : (Int × List Char) :=
  match l with
  | '+' :: rest => (1, rest)
  | '-' :: rest => (-1, rest)
  | _ => (1, l)

/-- Parse the body of a `decimal.Decimal` literal: `[sign] digits
[. digits] [(e|E) [sign] digits]`, requiring at least one significand
digit and no trailing garbage. -/
def parseDecCore (l : List Char) : Option ℚ :=
  let (sgn, l1) := takeSign l
  let (ip, l2) := takeDigits l1
  let fracPart :=
    match l2 with
    | '.' :: rest => takeDigits rest
    | _ => ([], l2)
  let fp := fracPart.1
  let l4 := fracPart.2
  if ip.isEmpty && fp.isEmpty then Option.none
  else
    let mant : ℚ := (digitsToNat ip : ℚ) + (digitsToNat fp : ℚ) / 10 ^ fp.length
    match l4 with
    | [] => some (sgn * mant)
    | c :: rest =>
        if c = 'e' || c = 'E' then
          let (esgn, r1) := takeSign rest
          let (eds, r2) := takeDigits r1
          if eds.isEmpty || !r2.isEmpty then Option.none
          else some (sgn * mant * (10 : ℚ) ^ (esgn * (digitsToNat eds : Int)))
        else Option.none

/-- Parse of a numeric string as `decimal.Decimal` would accept it
(leading/trailing whitespace tolerated); `Option.none` covers every input on
which the construction of the `Decimal` raises. -/
def parseDecimal (s : String) : Option ℚ :=
  parseDecCore (stripChars s.data)

/-- The `try` body's `.quantize(Decimal("0.01"), rounding=ROUND_HALF_UP)`
under the default `decimal` context (precision 28 significant digits):
quantisation succeeds exactly when the coefficient of the
2-fraction-digit result — the absolute number of cents — fits in 28
digits; otherwise `quantize` raises `decimal.InvalidOperation`. -/
def quantizeCtx (q : ℚ) : Option ℚ :=
  if (halfUpCents q).natAbs < 10 ^ 28 then some (quant2 q) else Option.none

/-- `_to_decimal` (`src/src/domain/entities.py` lines 5-14): convert any
value to a 2-fraction-digit decimal, half-up; `None`, the empty string
and anything non-numeric coerce to 0.00, and so does any value whose
cent count overflows the 28-digit context precision (|value| at or
above 10 ^ 26), because the `except` clause catches
`ValueError`/`TypeError`/`ArithmeticError` and
`decimal.InvalidOperation` derives from `ArithmeticError`. -/
def toDecimal (v : PyVal) : ℚ :=
  match v with
  | .none => 0
  | .int n => (quantizeCtx (n : ℚ)).getD 0
  | .num q => (quantizeCtx q).getD 0
  | .str s =>
      if s = "" then 0
      else
        match parseDecimal s with
        | some q => (quantizeCtx q).getD 0
        | Option.none => 0
  | .list _ => 0
  | .dict _ => 0

/-! ### SHA-256

`BillingDomainService.gerar_hash_item` fingerprints a matched
invoice-item/order-item pair with `hashlib.sha256(...).hexdigest()`.
The digest is embedded bit-faithfully below, over the UTF-8 bytes of the
input string; bytes and 32-bit words are plain naturals reduced
explicitly modulo 2^8 / 2^32. -/

/-- Reduce to a 32-bit word. -/
def w32 (n : Nat) : Nat := n % 4294967296

/-- Right rotation of a 32-bit word by `n` bits. -/
def rotr32 (n w : Nat) : Nat := w / 2 ^ n + w % 2 ^ n * 2 ^ (32 - n)

/-- SHA-256 Σ₀. -/
def bsig0 (x : Nat) : Nat := rotr32 2 x ^^^ rotr32 13 x ^^^ rotr32 22 x

/-- SHA-256 Σ₁. -/
def bsig1 (x : Nat) : Nat := rotr32 6 x ^^^ rotr32 11 x ^^^ rotr32 25 x

/-- SHA-256 σ₀. -/
def ssig0 (x : Nat) : Nat := rotr32 7 x ^^^ rotr32 18 x ^^^ (x >>> 3)

/-- SHA-256 σ₁. -/
def ssig1 (x : Nat) : Nat := rotr32 17 x ^^^ rotr32 19 x ^^^ (x >>> 10)

/-- SHA-256 Ch. -/
def chNat (x y z : Nat) : Nat := (x &&& y) ^^^ ((x ^^^ 0xFFFFFFFF) &&& z)

/-- SHA-256 Maj. -/
def majNat (x y z : Nat) : Nat := (x &&& y) ^^^ (x &&& z) ^^^ (y &&& z)

/-- The 64 SHA-256 round constants (decimal). -/
def kList : List Nat :=
  [1116352408, 1899447441, 3049323471, 3921009573,
   961987163, 1508970993, 2453635748, 2870763221,
   3624381080, 310598401, 607225278, 1426881987,
   1925078388, 2162078206, 2614888103, 3248222580,
   3835390401, 4022224774, 264347078, 604807628,
   770255983, 1249150122, 1555081692, 1996064986,
   2554220882, 2821834349, 2952996808, 3210313671,
   3336571891, 3584528711, 113926993, 338241895,
   666307205, 773529912, 1294757372, 1396182291,
   1695183700, 1986661051, 2177026350, 2456956037,
   2730485921, 2820302411, 3259730800, 3345764771,
   3516065817, 3600352804, 4094571909, 275423344,
   430227734, 506948616, 659060556, 883997877,
   958139571, 1322822218, 1537002063, 1747873779,
   1955562222, 2024104815, 2227730452, 2361852424,
   2428436474, 2756734187, 3204031479, 3329325298]

/-- The eight SHA-256 working registers. -/
structure Sha8 where
  a : Nat
  b : Nat
  c : Nat
  d : Nat
  e : Nat
  f : Nat
  g : Nat
  h : Nat

/-- Initial SHA-256 hash state. -/
def sha256init : Sha8 :=
  ⟨1779033703, 3144134277, 1013904242, 2773480762,
   1359893119, 2600822924, 528734635, 1541459225⟩

/-- Big-endian 8-byte encoding of the bit length. -/
def lenBytes (n : Nat) : List Nat :=
  [n / 2 ^ 56 % 256, n / 2 ^ 48 % 256, n / 2 ^ 40 % 256, n / 2 ^ 32 % 256,
   n / 2 ^ 24 % 256, n / 2 ^ 16 % 256, n / 2 ^ 8 % 256, n % 256]

/-- SHA-256 padding: append 0x80, zero bytes to 56 mod 64, then the
64-bit big-endian message bit length. -/
def padMsg (msg : List Nat) : List Nat :=
  let len := msg.length
  let zeros := (119 - len % 64) % 64
  msg ++ 0x80 :: List.replicate zeros 0 ++ lenBytes (8 * len)

/-- Group bytes into big-endian 32-bit words. -/
def toWords : List Nat → List Nat
  | b0 :: b1 :: b2 :: b3 :: rest =>
      (b0 * 16777216 + b1 * 65536 + b2 * 256 + b3) :: toWords rest
  | _ => []

/-- Split a byte stream into 64-byte chunks (fuelled so that the
recursion is structural; one unit of fuel per byte is always enough). -/
def toChunksF : Nat → List Nat → List (List Nat)
  | 0, _ => []
  | _ + 1, [] => []
  | fuel + 1, b :: rest => ((b :: rest).take 64) :: toChunksF fuel ((b :: rest).drop 64)

/-- Split the padded byte stream into 64-byte chunks. -/
def toChunks (l : List Nat) : List (List Nat) :=
  toChunksF l.length l

/-- One message-schedule extension step. -/
def schedStep (ws : List Nat) : List Nat :=
  ws ++ [w32 (ssig1 (ws.getD (ws.length - 2) 0) + ws.getD (ws.length - 7) 0 +
              ssig0 (ws.getD (ws.length - 15) 0) + ws.getD (ws.length - 16) 0)]

/-- Extend 16 words to the 64-word message schedule. -/
def schedule (ws : List Nat) : List Nat := Nat.repeat schedStep 48 ws

/-- One SHA-256 compression round. -/
def sha256Round (st : Sha8) (kw : Nat × Nat) : Sha8 :=
  let t1 := w32 (st.h + bsig1 st.e + chNat st.e st.f st.g + kw.1 + kw.2)
  let t2 := w32 (bsig0 st.a + majNat st.a st.b st.c)
  ⟨w32 (t1 + t2), st.a, st.b, st.c, w32 (st.d + t1), st.e, st.f, st.g⟩

/-- Compress one 64-byte chunk into the running state. -/
def processChunk (st : Sha8) (chunk : List Nat) : Sha8 :=
  let ws := schedule (toWords chunk)
  let fin := (kList.zip ws).foldl sha256Round st
  ⟨w32 (st.a + fin.a), w32 (st.b + fin.b), w32 (st.c + fin.c), w32 (st.d + fin.d),
   w32 (st.e + fin.e), w32 (st.f + fin.f), w32 (st.g + fin.g), w32 (st.h + fin.h)⟩

/-- SHA-256 over a byte list, producing the eight state words. -/
def sha256words (msg : List Nat) : Sha8 :=
  (toChunks (padMsg msg)).foldl processChunk sha256init

/-- Lowercase hex digit. -/
def hexDigit (n : Nat) : Char :=
  if n < 10 then Char.ofNat ('0'.toNat + n) else Char.ofNat ('a'.toNat + n - 10)

/-- Eight lowercase hex digits of a 32-bit word. -/
def wordHex (w : Nat) : List Char :=
  [hexDigit (w / 2 ^ 28 % 16), hexDigit (w / 2 ^ 24 % 16),
   hexDigit (w / 2 ^ 20 % 16), hexDigit (w / 2 ^ 16 % 16),
   hexDigit (w / 2 ^ 12 % 16), hexDigit (w / 2 ^ 8 % 16),
   hexDigit (w / 2 ^ 4 % 16), hexDigit (w % 16)]

/-- `hashlib.sha256(bytes).hexdigest()`. -/
def sha256hexBytes (msg : List Nat) : String :=
  let st := sha256words msg
  ⟨wordHex st.a ++ wordHex st.b ++ wordHex st.c ++ wordHex st.d ++
   wordHex st.e ++ wordHex st.f ++ wordHex st.g ++ wordHex st.h⟩

/-- UTF-8 encoding of a character (Python `str.encode()`). -/
def utf8Bytes (c : Char) : List Nat :=
  let n := c.toNat
  if n < 0x80 then [n]
  else if n < 0x800 then [0xC0 + n / 64, 0x80 + n % 64]
  else if n < 0x10000 then [0xE0 + n / 4096, 0x80 + n / 64 % 64, 0x80 + n % 64]
  else [0xF0 + n / 262144, 0x80 + n / 4096 % 64, 0x80 + n / 64 % 64, 0x80 + n % 64]

/-- UTF-8 bytes of a string. -/
def strBytes (s : String) : List Nat :=
  s.data.foldr (fun c acc => utf8Bytes c ++ acc) []

/-- `hashlib.sha256(s.encode()).hexdigest()`. -/
def sha256hex (s : String) : String :=
  sha256hexBytes (strBytes s)

/-! ### `BillingDomainService.normalizar_texto`

Embedding of `src/src/domain/services.py`, lines 34-39:
`unicodedata.normalize("NFKD", txt)`, removal of combining characters,
`.upper()`, and whitespace re-joining via `" ".join(txt.split())`.

The Unicode tables are embedded restricted to the character repertoire
this pipeline faces (ASCII plus the Latin-1/Portuguese letters, ordinal
indicators and no-break space); every character outside the tables is
its own NFKD normal form, has no case mapping and is not combining,
which is exactly Unicode's behaviour on the untabulated code points the
ERP payloads use. -/

/-- Association-list lookup on character tables. -/
def alookup (t : List (Char × List Char)) (c : Char) : Option (List Char) :=
  match t with
  | [] => Option.none
  | (k, v) :: rest => if k = c then some v else alookup rest c

/-- NFKD decompositions (`unicodedata.normalize("NFKD", ·)`) of the
precomposed characters in the embedded repertoire. -/
def decompTable : List (Char × List Char) :=
  [('À', ['A', '̀']), ('Á', ['A', '́']), ('Â', ['A', '̂']),
   ('Ã', ['A', '̃']), ('Ä', ['A', '̈']), ('Å', ['A', '̊']),
   ('Ç', ['C', '̧']),
   ('È', ['E', '̀']), ('É', ['E', '́']), ('Ê', ['E', '̂']),
   ('Ë', ['E', '̈']),
   ('Ì', ['I', '̀']), ('Í', ['I', '́']), ('Î', ['I', '̂']),
   ('Ï', ['I', '̈']),
   ('Ñ', ['N', '̃']),
   ('Ò', ['O', '̀']), ('Ó', ['O', '́']), ('Ô', ['O', '̂']),
   ('Õ', ['O', '̃']), ('Ö', ['O', '̈']),
   ('Ù', ['U', '̀']), ('Ú', ['U', '́']), ('Û', ['U', '̂']),
   ('Ü', ['U', '̈']),
   ('Ý', ['Y', '́']),
   ('à', ['a', '̀']), ('á', ['a', '́']), ('â', ['a', '̂']),
   ('ã', ['a', '̃']), ('ä', ['a', '̈']), ('å', ['a', '̊']),
   ('ç', ['c', '̧']),
   ('è', ['e', '̀']), ('é', ['e', '́']), ('ê', ['e', '̂']),
   ('ë', ['e', '̈']),
   ('ì', ['i', '̀']), ('í', ['i', '́']), ('î', ['i', '̂']),
   ('ï', ['i', '̈']),
   ('ñ', ['n', '̃']),
   ('ò', ['o', '̀']), ('ó', ['o', '́']), ('ô', ['o', '̂']),
   ('õ', ['o', '̃']), ('ö', ['o', '̈']),
   ('ù', ['u', '̀']), ('ú', ['u', '́']), ('û', ['u', '̂']),
   ('ü', ['u', '̈']),
   ('ý', ['y', '́']), ('ÿ', ['y', '̈']),
   (' ', [' ']), ('ª', ['a']), ('º', ['o'])]

/-- NFKD decomposition of one character. -/
def decompose (c : Char) : List Char :=
  (alookup decompTable c).getD [c]

/-- `unicodedata.combining(c) != 0` for the embedded repertoire: the
combining diacritical marks block U+0300–U+036F. -/
def isCombining (c : Char) : Bool :=
  0x300 ≤ c.toNat && c.toNat ≤ 0x36F

/-- Uppercase mappings of `str.upper()` for the embedded repertoire
(including the one-to-many 'ß' → "SS"). -/
def upperTable : List (Char × List Char) :=
  [('a', ['A']), ('b', ['B']), ('c', ['C']), ('d', ['D']), ('e', ['E']),
   ('f', ['F']), ('g', ['G']), ('h', ['H']), ('i', ['I']), ('j', ['J']),
   ('k', ['K']), ('l', ['L']), ('m', ['M']), ('n', ['N']), ('o', ['O']),
   ('p', ['P']), ('q', ['Q']), ('r', ['R']), ('s', ['S']), ('t', ['T']),
   ('u', ['U']), ('v', ['V']), ('w', ['W']), ('x', ['X']), ('y', ['Y']),
   ('z', ['Z']), ('ß', ['S', 'S']),
   ('à', ['À']), ('á', ['Á']), ('â', ['Â']), ('ã', ['Ã']), ('ä', ['Ä']),
   ('å', ['Å']), ('ç', ['Ç']), ('è', ['È']), ('é', ['É']), ('ê', ['Ê']),
   ('ë', ['Ë']), ('ì', ['Ì']), ('í', ['Í']), ('î', ['Î']), ('ï', ['Ï']),
   ('ñ', ['Ñ']), ('ò', ['Ò']), ('ó', ['Ó']), ('ô', ['Ô']), ('õ', ['Õ']),
   ('ö', ['Ö']), ('ù', ['Ù']), ('ú', ['Ú']), ('û', ['Û']), ('ü', ['Ü']),
   ('ý', ['Ý']), ('ÿ', ['Ÿ'])]

/-- `str.upper()` of one character (possibly one-to-many). -/
def upperList (c : Char) : List Char :=
  (alookup upperTable c).getD [c]

/-- A character counts as lowercase in the embedding exactly when
`str.upper()` maps it somewhere. -/
def isLowerE (c : Char) : Bool :=
  (alookup upperTable c).isSome

/-- NFKD of a character list. -/
def decompAll (l : List Char) : List Char :=
  l.foldr (fun c acc => decompose c ++ acc) []

/-- Removal of combining characters
(`"".join(c for c in txt if not unicodedata.combining(c))`). -/
def stripCombining (l : List Char) : List Char :=
  l.filter (fun c => !isCombining c)

/-- `str.upper()` of a character list. -/
def upperAll (l : List Char) : List Char :=
  l.foldr (fun c acc => upperList c ++ acc) []

/-- Accumulator-based whitespace splitting; `cur` holds the current word
reversed. -/
def splitWsAux (l : List Char) (cur : List Char) : List (List Char) :=
  match l with
  | [] => if cur.isEmpty then [] else [cur.reverse]
  | c :: rest =>
      if isPySpace c then
        if cur.isEmpty then splitWsAux rest []
        else cur.reverse :: splitWsAux rest []
      else splitWsAux rest (c :: cur)

/-- Python `str.split()` with no argument: split on whitespace runs,
discarding empty fields. -/
def splitWs (l : List Char) : List (List Char) :=
  splitWsAux l []

/-- Python `" ".join(words)`. -/
def joinWords (ws : List (List Char)) : List Char :=
  match ws with
  | [] => []
  | [w] => w
  | w :: rest => w ++ ' ' :: joinWords rest

/-- `BillingDomainService.normalizar_texto`
(`src/src/domain/services.py` lines 34-39). -/
def normalizar_texto (s : String) : String :=
  if s.data.isEmpty then ""
  else ⟨joinWords (splitWs (upperAll (stripCombining (decompAll s.data))))⟩

/-- No two adjacent whitespace characters. -/
def noDouble : List Char → Bool
  | c :: d :: rest => !(isPySpace c && isPySpace d) && noDouble (d :: rest)
  | _ => true

/-- No leading whitespace, no trailing whitespace, no two adjacent
whitespace characters. -/
def noExtraSpace (l : List Char) : Bool :=
  (match l.head? with | some c => !isPySpace c | Option.none => true) &&
  (match l.getLast? with | some c => !isPySpace c | Option.none => true) &&
  noDouble l

/-- Full stability of a character under the normalisation pipeline: no
decomposition, not combining, no uppercase mapping. -/
def outOk (c : Char) : Bool :=
  (alookup decompTable c).isNone && !isCombining c && (alookup upperTable c).isNone

/-! ### Python coercions and defensive accessors

`int()`, `float()`, truthiness, subscript and `.get` — with the Python
exception taxonomy split into `attr` (`AttributeError`, never caught by
the pipeline's `except` clauses) and `keyval` (`KeyError` /
`ValueError` / `TypeError`, the tuple the validator and the per-order
handler catch). -/

/-- Exception kinds the pipeline distinguishes. -/
inductive PyErr where
  | attr
  | keyval
  deriving DecidableEq

/-- Python truthiness. -/
def pyFalsy (v : PyVal) : Bool :=
  match v with
  | .none => true
  | .str s => s = ""
  | .int n => n = 0
  | .num q => q = 0
  | .list l => l.isEmpty
  | .dict d => d.isEmpty

/-- Subscript `v[k]`: `KeyError` when missing, `TypeError` on a
non-dict — both in the caught `keyval` class. -/
def dsub (v : PyVal) (k : String) : Except PyErr PyVal :=
  match v with
  | .dict d =>
      match dlookup d k with
      | some x => Except.ok x
      | Option.none => Except.error PyErr.keyval
  | _ => Except.error PyErr.keyval

/-- `v.get(k, dflt)`: `AttributeError` on a non-dict. -/
def dgetE (v : PyVal) (k : String) (dflt : PyVal) : Except PyErr PyVal :=
  match v with
  | .dict d => Except.ok (dget d k dflt)
  | _ => Except.error PyErr.attr

/-- Treat a value as a dict for a `.get` chain, raising
`AttributeError` otherwise. -/
def asDictE (v : PyVal) : Except PyErr (List (String × PyVal)) :=
  match v with
  | .dict d => Except.ok d
  | _ => Except.error PyErr.attr

/-- `[sign] digits` with surrounding whitespace, fully consumed —
Python `int(str)`. -/
def parseIntStr (s : String) : Option Int :=
  let l := stripChars s.data
  let (sgn, l1) := takeSign l
  let (ds, rest) := takeDigits l1
  if ds.isEmpty || !rest.isEmpty then Option.none
  else some (sgn * (digitsToNat ds : Int))

/-- Truncation toward zero — Python `int(float)`. -/
def ratTrunc (q : ℚ) : Int :=
  if 0 ≤ q then ⌊q⌋ else -⌊-q⌋

/-- Python `int(value)`; failures are `ValueError`/`TypeError`. -/
def pyIntE (v : PyVal) : Except PyErr Int :=
  match v with
  | .int n => Except.ok n
  | .num q => Except.ok (ratTrunc q)
  | .str s =>
      match parseIntStr s with
      | some n => Except.ok n
      | Option.none => Except.error PyErr.keyval
  | _ => Except.error PyErr.keyval

/-- Python `float(value)`; failures are `ValueError`/`TypeError`. -/
def pyFloatE (v : PyVal) : Except PyErr ℚ :=
  match v with
  | .num q => Except.ok q
  | .int n => Except.ok (n : ℚ)
  | .str s =>
      match parseDecimal s with
      | some q => Except.ok q
      | Option.none => Except.error PyErr.keyval
  | _ => Except.error PyErr.keyval

/-- Python `str.isdigit()` for ASCII digits. -/
def pyIsdigit (s : String) : Bool :=
  !s.data.isEmpty && s.data.all (fun c => '0' ≤ c && c ≤ '9')

/-! ### `BillingDomainService` — helpers and validator

Embedding of `src/src/domain/services.py`. -/

/-- `_get_safe_dict` (lines 20-24). -/
def get_safe_dict (source : PyVal) (key : String) : List (String × PyVal) :=
  match source with
  | .dict d =>
      match dget d key (.dict []) with
      | .dict d2 => d2
      | _ => []
  | _ => []

/-- `_ensure_list` (lines 26-32): a list stays, a non-empty dict wraps,
everything else becomes the empty list. -/
def ensure_list (v : PyVal) : List PyVal :=
  match v with
  | .list l => l
  | .dict d => if d.isEmpty then [] else [.dict d]
  | _ => []

/-- `normalizar_texto` on an arbitrary value (the method guards with
`if not txt` before `str(txt)`). -/
def normalizar_texto_py (v : PyVal) : String :=
  if pyFalsy v then "" else normalizar_texto (pyStr v)

/-- `gerar_hash_item` (lines 57-70): SHA-256 hexdigest of the
concatenated linkage/party/item fields.  `pedido` and `ped_item` are
accepted but unused, exactly as in the source. -/
def gerar_hash_item (nf _pedido nfItem _pedItem : PyVal) : Except PyErr String := do
  let compl ← dgetE nf "compl" (.dict [])
  let v1 ← dgetE compl "nIdPedido" (.str "0")
  let dest ← dgetE nf "nfDestInt" (.dict [])
  let v2 ← dgetE dest "nCodCli" (.str "0")
  let emit ← dgetE nf "nfEmitInt" (.dict [])
  let v3 ← dgetE emit "nCodEmp" (.str "0")
  let prodInt ← dgetE nfItem "nfProdInt" (.dict [])
  let v4 ← dgetE prodInt "nCodItem" (.str "")
  let v5 ← dgetE prodInt "nCodProd" (.str "")
  let prod ← dgetE nfItem "prod" (.dict [])
  let v6 ← dgetE prod "qCom" (.int 0)
  let v7 ← dgetE prod "vTotItem" (.int 0)
  Except.ok (sha256hex (pyStr v1 ++ pyStr v2 ++ pyStr v3 ++ pyStr v4 ++
                        pyStr v5 ++ pyStr v6 ++ pyStr v7))

/-- One attempt of the validator's inner item comparison (lines 99-109
up to the tolerance test); any `keyval` failure is what the `except`
clause catches. -/
def itemMatchRaw (nfItem pedItem : PyVal) : Except PyErr Bool := do
  let prodNf ← dsub nfItem "prod"
  let qNf ← pyFloatE (← dsub prodNf "qCom")
  let prodPed ← dsub pedItem "produto"
  let qPed ← pyFloatE (← dsub prodPed "quantidade")
  let vNf ← pyFloatE (← dsub prodNf "vUnCom")
  let vPed ← pyFloatE (← dsub prodPed "valor_unitario")
  let prodIntNf ← dsub nfItem "nfProdInt"
  let codNf := pyStr (← dsub prodIntNf "nCodProd")
  let codPed := pyStr (← dsub prodPed "codigo_produto")
  Except.ok (decide (codNf = codPed) &&
             decide (|qNf - qPed| < 1 / 1000) &&
             decide (|vNf - vPed| < 1 / 100))

/-- The match predicate of the claim: product codes string-equal,
quantities within 0.001, unit prices within 0.01; a pair whose field
extraction raises a caught error simply does not match. -/
def itemMatches (nfItem pedItem : PyVal) : Bool :=
  match itemMatchRaw nfItem pedItem with
  | Except.ok b => b
  | Except.error _ => false

/-- The validator's inner `for ped_item ... break` loop for one invoice
item: first compatible order item wins; its pair hash is produced.  A
caught (`keyval`) failure — of the comparison or of the hash — moves on
to the next order item; `AttributeError` propagates. -/
def findMatch (nf pedido nfItem : PyVal) : List PyVal → Except PyErr (Option String)
  | [] => Except.ok Option.none
  | p :: rest =>
      match itemMatchRaw nfItem p with
      | Except.error PyErr.keyval => findMatch nf pedido nfItem rest
      | Except.error PyErr.attr => Except.error PyErr.attr
      | Except.ok false => findMatch nf pedido nfItem rest
      | Except.ok true =>
          match gerar_hash_item nf pedido nfItem p with
          | Except.ok h => Except.ok (some h)
          | Except.error PyErr.keyval => findMatch nf pedido nfItem rest
          | Except.error PyErr.attr => Except.error PyErr.attr

/-- The name used by the validator's "item not found" message:
`nf_item.get('prod',Nothing).get('cProd')` stringified. -/
def itemName (it : PyVal) : Except PyErr String := do
  let prod ← dgetE it "prod" (.dict [])
  let cProd ← dgetE prod "cProd" PyVal.none
  Except.ok (pyStr cProd)

/-- Validation verdict (`relatorio` dict of `validar_integridade`). -/
structure Verdict where
  status : String
  erros : List String
  hash_validacao : Option String
  deriving DecidableEq

/-- The validator's outer loop over invoice items (lines 96-118),
threading the error list, the match count and the last pair hash. -/
def validarLoop (nf pedido : PyVal) (pedItems : List PyVal) :
    List PyVal → List String → Nat → String →
    Except PyErr (List String × Nat × String)
  | [], erros, mcount, ultimo => Except.ok (erros, mcount, ultimo)
  | nfItem :: rest, erros, mcount, ultimo =>
      match findMatch nf pedido nfItem pedItems with
      | Except.error e => Except.error e
      | Except.ok (some h) =>
          validarLoop nf pedido pedItems rest erros (mcount + 1) h
      | Except.ok Option.none =>
          match itemName nfItem with
          | Except.error e => Except.error e
          | Except.ok nome =>
              validarLoop nf pedido pedItems rest
                (erros ++ ["Item NF " ++ nome ++ " não encontrado no Pedido"])
                mcount ultimo

/-- `validar_integridade` (lines 72-124). -/
def validar_integridade (rawNf rawOrder : PyVal) : Except PyErr Verdict := do
  let compl ← dgetE rawNf "compl" (.dict [])
  let idNf := pyStr (← dgetE compl "nIdPedido" (.str ""))
  let cab ← dgetE rawOrder "cabecalho" (.dict [])
  let idPed := pyStr (← dgetE cab "codigo_pedido" (.str ""))
  let erros0 : List String :=
    if idNf ≠ idPed then
      ["Divergência de ID Pedido: NF(" ++ idNf ++ ") vs Pedido(" ++ idPed ++ ")"]
    else []
  let nfItems := ensure_list (← dgetE rawNf "det" (.list []))
  let pedItems := ensure_list (← dgetE rawOrder "det" (.list []))
  if nfItems.isEmpty then
    Except.ok ⟨"FALHA",
      erros0 ++ ["Nota Fiscal não possui itens (det) para validar"], Option.none⟩
  else do
    let (erros1, mcount, ultimo) ← validarLoop rawNf rawOrder pedItems nfItems erros0 0 ""
    if mcount = nfItems.length ∧ erros1.isEmpty then
      Except.ok ⟨"OK", erros1, some ultimo⟩
    else
      Except.ok ⟨"FALHA", erros1, Option.none⟩

/-- `clean_nf_data` output (the four-field invoice summary). -/
structure CleanNF where
  nNF : String
  dEmi : String
  hEmi : String
  cChaveNFe : String
  deriving DecidableEq

/-- `clean_nf_data` (lines 128-137). -/
def clean_nf_data (rawNf : PyVal) : CleanNF :=
  let ide := get_safe_dict rawNf "ide"
  let compl := get_safe_dict rawNf "compl"
  ⟨pyStrip (pyStr (dget ide "nNF" (.str ""))),
   pyStrip (pyStr (dget ide "dEmi" (.str ""))),
   pyStrip (pyStr (dget ide "hEmi" (.str ""))),
   pyStrip (pyStr (dget compl "cChaveNFe" (.str "")))⟩

/-! ### Refined entities and `clean_order_data`

Embedding of the dataclasses of `src/src/domain/entities.py` and of
`BillingDomainService.clean_order_data`
(`src/src/domain/services.py` lines 139-263).  The dataclass
`__post_init__` decimal coercions (`_to_decimal` on quantities, prices
and installment values) are applied at construction, as in the source;
`to_dict()` is a serialisation of this record and introduces no further
logic, so the record itself stands for the output value. -/

/-- `Cabecalho` dataclass. -/
structure Cabecalho where
  bloqueado : String
  codigo_cenario_impostos : String
  codigo_cliente : Int
  codigo_parcela : String
  codigo_pedido : Int
  data_previsao : String
  etapa : String
  numero_pedido : String
  origem_pedido : String
  qtde_parcelas : Int
  quantidade_itens : Int

/-- `InfoCadastro` dataclass. -/
structure InfoCadastro where
  autorizado : String
  cImpAPI : String
  cancelado : String
  dAlt : String
  dFat : String
  dInc : String
  denegado : String
  devolvido : String
  devolvido_parcial : String
  faturado : String
  hAlt : String
  hFat : String
  hInc : String
  uAlt : String
  uFat : String
  uInc : String

/-- `InformacoesAdicionais` dataclass. -/
structure InformacoesAdicionais where
  codProj : Int
  codVend : Int
  vendedor_nome : String
  codigo_categoria : String
  categoria_nome : String
  codigo_conta_corrente : Int
  consumidor_final : String
  enviar_email : String
  enviar_pix : String
  numero_pedido_cliente : String
  utilizar_emails : String

/-- `ProdutoItem` dataclass (monetary fields already `_to_decimal`-ised
by `__post_init__`). -/
structure ProdutoItem where
  codigo : String
  codigo_produto : Int
  descricao : String
  ncm : String
  cfop : String
  unidade : String
  quantidade : ℚ
  valor_unitario : ℚ
  valor_total : ℚ

/-- `ItemPedido` dataclass; `ide` keeps the raw sub-object. -/
structure ItemPedido where
  ide : PyVal
  produto : ProdutoItem

/-- `Parcela` dataclass (`valor` `_to_decimal`-ised by
`__post_init__`). -/
structure Parcela where
  data_vencimento : String
  numero_parcela : Int
  percentual : ℚ
  quantidade_dias : Int
  valor : ℚ

/-- `Observacoes` dataclass. -/
structure Observacoes where
  obs_venda : String

/-- `TotalPedido` dataclass. -/
structure TotalPedido where
  valor_total_pedido : ℚ

/-- `NotaFiscalRefinada` dataclass. -/
structure NotaFiscalRefinada where
  nNF : String
  dEmi : String
  hEmi : String
  cChaveNFe : String

/-- `PedidoRefinado` dataclass — the canonical refined order. -/
structure PedidoRefinado where
  cabecalho : Cabecalho
  infoCadastro : InfoCadastro
  informacoes_adicionais : InformacoesAdicionais
  det : List ItemPedido
  lista_parcelas : List Parcela
  observacoes : Observacoes
  total_pedido : TotalPedido
  nota_fiscal : NotaFiscalRefinada
  hash_integridade : Option String

/-- `_resolve_vendedor_name` (lines 41-53).  The `or`-chain picks the
first truthy of `nome` / `nome_exibicao` / the placeholder. -/
def resolve_vendedor_name (vmap : List (String × PyVal)) (codVend : PyVal) : String :=
  let codStr := pyStr codVend
  if pyFalsy codVend || codStr = "0" then "Venda Direta"
  else
    match dlookup vmap codStr with
    | Option.none => "Vendedor " ++ codStr
    | some entry =>
        if pyFalsy entry then "Vendedor " ++ codStr
        else
          match entry with
          | .dict d =>
              let nome := dget d "nome" PyVal.none
              if !pyFalsy nome then pyStr nome
              else
                let nome2 := dget d "nome_exibicao" PyVal.none
                if !pyFalsy nome2 then pyStr nome2
                else "Vendedor " ++ codStr
          | _ => pyStr entry

/-- `int(cod_vend) if cod_vend.isdigit() else 0` (line 188). -/
def codVendInt (s : String) : Int :=
  if pyIsdigit s then (parseIntStr s).getD 0 else 0

/-- The item loop of `clean_order_data` (lines 204-220): non-dict
entries are silently skipped; conversion errors propagate. -/
def cleanItems : List PyVal → Except PyErr (List ItemPedido)
  | [] => Except.ok []
  | it :: rest =>
      match it with
      | .dict d => do
          let prod := dget d "produto" (.dict [])
          let ide := dget d "ide" (.dict [])
          let prodD ← asDictE prod
          let codigo_produto ← pyIntE (dget prodD "codigo_produto" (.int 0))
          let q ← pyFloatE (dget prodD "quantidade" (.int 0))
          let vu ← pyFloatE (dget prodD "valor_unitario" (.int 0))
          let vt ← pyFloatE (dget prodD "valor_total" (.int 0))
          let item : ItemPedido :=
            ⟨ide,
             ⟨pyStr (dget prodD "codigo" (.str "")),
              codigo_produto,
              normalizar_texto_py (dget prodD "descricao" (.str "")),
              pyStr (dget prodD "ncm" (.str "")),
              pyStr (dget prodD "cfop" (.str "")),
              pyStr (dget prodD "unidade" (.str "")),
              quant2 q, quant2 vu, quant2 vt⟩⟩
          let more ← cleanItems rest
          Except.ok (item :: more)
      | _ => cleanItems rest

/-- The installment comprehension of `clean_order_data`
(lines 223-233): non-dict entries are skipped; conversion errors
propagate. -/
def cleanParcelas : List PyVal → Except PyErr (List Parcela)
  | [] => Except.ok []
  | p :: rest =>
      match p with
      | .dict d => do
          let numero ← pyIntE (dget d "numero_parcela" (.int 0))
          let percentual ← pyFloatE (dget d "percentual" (.int 0))
          let dias ← pyIntE (dget d "quantidade_dias" (.int 0))
          let valor ← pyFloatE (dget d "valor" (.int 0))
          let parc : Parcela :=
            ⟨pyStr (dget d "data_vencimento" (.str "")),
             numero, percentual, dias, quant2 valor⟩
          let more ← cleanParcelas rest
          Except.ok (parc :: more)
      | _ => cleanParcelas rest

/-- `clean_order_data` (lines 139-263): raw order to `PedidoRefinado`,
enriched from the reference maps, the optional invoice summary and the
optional validation hash.  Conversion failures (`int()`/`float()` on
malformed fields, `.get` on a non-dict line item) surface as `Except`
errors, which the orchestrator's per-order handler catches. -/
def clean_order_data (vmap cmap : List (String × PyVal)) (rawOrder : PyVal)
    (nfData : Option CleanNF) (validationHash : Option String) :
    Except PyErr PedidoRefinado := do
  let rawCab := get_safe_dict rawOrder "cabecalho"
  let codigo_cliente ← pyIntE (dget rawCab "codigo_cliente" (.int 0))
  let codigo_pedido ← pyIntE (dget rawCab "codigo_pedido" (.int 0))
  let qtde_parcelas ← pyIntE (dget rawCab "qtde_parcelas" (.int 0))
  let quantidade_itens ← pyIntE (dget rawCab "quantidade_itens" (.int 0))
  let cabecalho : Cabecalho :=
    ⟨pyStr (dget rawCab "bloqueado" (.str "N")),
     pyStr (dget rawCab "codigo_cenario_impostos" (.str "")),
     codigo_cliente,
     pyStr (dget rawCab "codigo_parcela" (.str "")),
     codigo_pedido,
     pyStr (dget rawCab "data_previsao" (.str "")),
     pyStr (dget rawCab "etapa" (.str "")),
     pyStr (dget rawCab "numero_pedido" (.str "")),
     pyStr (dget rawCab "origem_pedido" (.str "")),
     qtde_parcelas,
     quantidade_itens⟩
  let rawInfo := get_safe_dict rawOrder "infoCadastro"
  let info : InfoCadastro :=
    ⟨pyStr (dget rawInfo "autorizado" (.str "N")),
     pyStr (dget rawInfo "cImpAPI" (.str "N")),
     pyStr (dget rawInfo "cancelado" (.str "N")),
     pyStr (dget rawInfo "dAlt" (.str "")),
     pyStr (dget rawInfo "dFat" (.str "")),
     pyStr (dget rawInfo "dInc" (.str "")),
     pyStr (dget rawInfo "denegado" (.str "N")),
     pyStr (dget rawInfo "devolvido" (.str "N")),
     pyStr (dget rawInfo "devolvido_parcial" (.str "N")),
     pyStr (dget rawInfo "faturado" (.str "N")),
     pyStr (dget rawInfo "hAlt" (.str "")),
     pyStr (dget rawInfo "hFat" (.str "")),
     pyStr (dget rawInfo "hInc" (.str "")),
     pyStr (dget rawInfo "uAlt" (.str "")),
     pyStr (dget rawInfo "uFat" (.str "")),
     pyStr (dget rawInfo "uInc" (.str ""))⟩
  let rawAdic := get_safe_dict rawOrder "informacoes_adicionais"
  let codVend := pyStr (dget rawAdic "codVend" (.str ""))
  let codCat := pyStr (dget rawAdic "codigo_categoria" (.str ""))
  let codProj ← pyIntE (dget rawAdic "codProj" (.int 0))
  let conta ← pyIntE (dget rawAdic "codigo_conta_corrente" (.int 0))
  let adicionais : InformacoesAdicionais :=
    ⟨codProj,
     codVendInt codVend,
     resolve_vendedor_name vmap (.str codVend),
     codCat,
     (match dlookup cmap codCat with
      | some v => pyStr v
      | Option.none => "Categoria " ++ codCat),
     conta,
     pyStr (dget rawAdic "consumidor_final" (.str "N")),
     pyStr (dget rawAdic "enviar_email" (.str "N")),
     pyStr (dget rawAdic "enviar_pix" (.str "N")),
     pyStrip (pyStr (dget rawAdic "numero_pedido_cliente" (.str ""))),
     pyStrip (pyStr (dget rawAdic "utilizar_emails" (.str "")))⟩
  let detRaw ← dgetE rawOrder "det" (.list [])
  let items ← cleanItems (ensure_list detRaw)
  let parcelas ← cleanParcelas
    (ensure_list (dget (get_safe_dict rawOrder "lista_parcelas") "parcela" (.list [])))
  let observacoes : Observacoes :=
    ⟨pyStrip (pyStr (dget (get_safe_dict rawOrder "observacoes") "obs_venda" (.str "")))⟩
  let total ← pyFloatE (dget (get_safe_dict rawOrder "total_pedido") "valor_total_pedido" (.int 0))
  let notaFiscal : NotaFiscalRefinada :=
    match nfData with
    | some nf => ⟨nf.nNF, nf.dEmi, nf.hEmi, nf.cChaveNFe⟩
    | Option.none => ⟨"", "", "", ""⟩
  Except.ok ⟨cabecalho, info, adicionais, items, parcelas, observacoes,
             ⟨quant2 total⟩, notaFiscal, validationHash⟩

/-! ### `JsonRepository` — persisted state

Embedding of `src/src/infrastructure/repositories.py`.  A file on disk
is `Option PyVal` (`Option.none` = missing or unreadable, which the source
maps to the same defaults as a read failure).  The write path
(`_atomic_write`) is an OS-level effect with no further logic over the
data and is modelled as the state update itself. -/

/-- Ordered insertion keeping the list sorted and duplicate-free. -/
def insSorted (s : String) : List String → List String
  | [] => [s]
  | x :: t => if s = x then x :: t else if s < x then s :: x :: t else x :: insSorted s t

/-- Canonical (sorted, duplicate-free) form of a string set — the shape
`sorted(list(set(...)))` persists. -/
def sortedDedup (l : List String) : List String :=
  l.foldr insSorted []

/-- `load_filter_set` (lines 81-116): a JSON array becomes the set of
its stripped stringified non-null entries; anything else (missing file,
wrong shape, decode error) becomes the empty set. -/
def load_filter_set (file : Option PyVal) : List String :=
  match file with
  | some (.list l) =>
      sortedDedup ((l.filter (fun v =>
        match v with
        | PyVal.none => false
        | _ => true)).map (fun v => pyStrip (pyStr v)))
  | _ => []

/-- `update_processed_list` (lines 156-178): no-op on an empty id list;
otherwise read the current set, union in the stripped new ids, and
persist as a sorted JSON array. -/
def update_processed_list (file : Option PyVal) (newIds : List String) : Option PyVal :=
  if newIds.isEmpty then file
  else
    let current := load_filter_set file
    let updated := sortedDedup (current ++ newIds.map pyStrip)
    some (.list (updated.map PyVal.str))

/-- `load_dict` (lines 118-149, `required=False` as the callers use it):
a JSON object is returned; a JSON array is logged and dropped — the
method returns the EMPTY dict for it ("Caller deve tratar se quiser
lista"); a missing/unreadable file or any other shape also yields the
empty dict. -/
def load_dict (file : Option PyVal) : PyVal :=
  match file with
  | some (.dict d) => .dict d
  | _ => .dict []

/-! ### `BillingApplication` — orchestrator

Embedding of `src/monitor_faturamento.py`.  The HTTP client is replaced
by a response script (`List PageResp`) consumed one entry per
`listar_pedidos` call; an entry is a parsed JSON body, a raised
exception, or a `KeyboardInterrupt` delivered at the call boundary.
Recursion is fuelled; running out of fuel models a non-terminating run
(one that never reaches the `finally` block). -/

/-- `_load_and_map_vendedores` (lines 42-48).  The list branch mirrors
the dict comprehension keyed by stripped `codigo_vendedor`
(later entries overwrite earlier ones). -/
def load_and_map_vendedores (file : Option PyVal) : List (String × PyVal) :=
  match load_dict file with
  | .list l =>
      l.foldl (fun acc v =>
        match v with
        | .dict d => (pyStrip (pyStr (dget d "codigo_vendedor" (.str ""))), .dict d) :: acc
        | _ => acc) []
  | .dict d => d
  | _ => []

/-- `_load_and_map_categorias` (lines 50-56). -/
def load_and_map_categorias (file : Option PyVal) : List (String × PyVal) :=
  match load_dict file with
  | .list l =>
      l.foldl (fun acc v =>
        match v with
        | .dict d => (pyStrip (pyStr (dget d "codigo" (.str ""))), dget d "descricao" (.str "N/D")) :: acc
        | _ => acc) []
  | .dict d => d
  | _ => []

/-- Linkage resolution of `_fetch_nfe_map` (lines 80-88): primary read
from the complement block, fallback to the first line item when the
primary is empty or the sentinel "0" and `det` is a non-empty list. -/
def nf_resolve_id (nf : PyVal) : Except PyErr String := do
  let compl ← dgetE nf "compl" (.dict [])
  let nId0 := pyStrip (pyStr (← dgetE compl "nIdPedido" (.str "0")))
  let det ← dgetE nf "det" (.list [])
  if nId0 = "0" || nId0 = "" then
    match det with
    | .list (d0 :: _) => do
        let fid ← dgetE d0 "nIdPedido" (.str "0")
        Except.ok (pyStrip (pyStr fid))
    | _ => Except.ok nId0
  else Except.ok nId0

/-- First-match lookup in the invoice index (Python dict lookup; the
index is built by prepending, so the binding inserted last wins). -/
def nfMapLookup (m : List (String × CleanNF)) (k : String) : Option CleanNF :=
  match m with
  | [] => Option.none
  | (k2, v) :: rest => if k2 = k then some v else nfMapLookup rest k

/-- The per-invoice indexing loop of `_fetch_nfe_map` (lines 79-93): an
invoice with a valid (non-empty, non-"0") linkage id is indexed under
it (overwriting), an invoice without one is skipped, and a raised
per-invoice error aborts the page scan keeping what was indexed. -/
def indexNfs (nfs : List PyVal) (m : List (String × CleanNF)) :
    List (String × CleanNF) × Option PyErr :=
  match nfs with
  | [] => (m, Option.none)
  | nf :: rest =>
      match nf_resolve_id nf with
      | Except.error e => (m, some e)
      | Except.ok nid =>
          if nid ≠ "" && nid ≠ "0" then
            indexNfs rest ((nid, clean_nf_data nf) :: m)
          else indexNfs rest m

/-- One scripted outcome of a `listar_pedidos` call. -/
inductive PageResp where
  | ok (body : PyVal)
  | exn
  | interrupt

/-- `all_cleaned_orders` / `ids_processados_agora` / `skipped_count`,
plus a trace (`seen`) of every order occurrence iterated by the
per-order loop. -/
structure OrderAcc where
  orders : List (String × PedidoRefinado)
  ids : List String
  skipped : Nat
  seen : List PyVal

/-- One recorded `_save_results` call (arguments and checkpoint flag). -/
structure SaveCall where
  orders : List (String × PedidoRefinado)
  ids : List String
  checkpoint : Bool

/-- The persisted files `_save_results` touches. -/
structure RepoState where
  output : Option (List (String × PedidoRefinado))
  processados : Option PyVal

/-- `_save_results` (lines 199-217): nothing happens on an empty
accumulated map; otherwise the refined snapshot is written and — on
checkpoint and final saves alike — the processed-ids history is
updated whenever there are new ids (`is_checkpoint` only selects the
log line). -/
def save_results (st : RepoState) (orders : List (String × PedidoRefinado))
    (processedIds : List String) (_isCheckpoint : Bool) : RepoState :=
  if orders.isEmpty then st
  else
    { output := some orders,
      processados :=
        if processedIds.isEmpty then st.processados
        else update_processed_list st.processados processedIds }

/-- Extraction of both header identifiers (lines 142-144); a failure
(non-dict order or header) escapes the per-order loop and fails the
page. -/
def orderHeader (o : PyVal) : Option (String × String) :=
  match dgetE o "cabecalho" (.dict []) with
  | Except.error _ => Option.none
  | Except.ok cabv =>
      match dgetE cabv "codigo_pedido" (.str ""), dgetE cabv "numero_pedido" (.str "S_NUM") with
      | Except.ok c, Except.ok n => some (pyStrip (pyStr c), pyStrip (pyStr n))
      | _, _ => Option.none

/-- Per-order processing (lines 141-165): blocklist check first, then
clean-and-store inside the per-order `try` whose handler logs and drops
the order. -/
def processOrder (bl : List String) (nfMap : List (String × CleanNF))
    (vmap cmap : List (String × PyVal)) (acc : OrderAcc) (o : PyVal) :
    Except Unit OrderAcc :=
  match orderHeader o with
  | Option.none => Except.error ()
  | some (cod, num) =>
      if bl.contains cod then
        Except.ok { acc with skipped := acc.skipped + 1, seen := acc.seen ++ [o] }
      else
        match clean_order_data vmap cmap o (nfMapLookup nfMap cod) Option.none with
        | Except.ok limpos =>
            Except.ok { acc with
                orders := (num, limpos) :: acc.orders,
                ids := acc.ids ++ [cod],
                seen := acc.seen ++ [o] }
        | Except.error _ => Except.ok { acc with seen := acc.seen ++ [o] }

/-- The page's order loop. -/
def processOrders (bl : List String) (nfMap : List (String × CleanNF))
    (vmap cmap : List (String × PyVal)) (acc : OrderAcc) :
    List PyVal → Except Unit OrderAcc
  | [] => Except.ok acc
  | o :: rest =>
      match processOrder bl nfMap vmap cmap acc o with
      | Except.error e => Except.error e
      | Except.ok acc2 => processOrders bl nfMap vmap cmap acc2 rest

/-- Mutable state of `run_extraction`'s pagination loop, plus the trace
of `_save_results` calls. -/
structure RunState where
  acc : OrderAcc
  page : Int
  totalPages : PyVal
  repo : RepoState
  saves : List SaveCall

/-- Perform and record one `_save_results` call. -/
def doSave (st : RunState) (ckpt : Bool) : RunState :=
  { st with
      repo := save_results st.repo st.acc.orders st.acc.ids ckpt,
      saves := st.saves ++ [⟨st.acc.orders, st.acc.ids, ckpt⟩] }

/-- `page <= total_pages` with Python comparison semantics: comparing
an int against a non-numeric value raises `TypeError`. -/
def pageLE (page : Int) (tp : PyVal) : Except PyErr Bool :=
  match tp with
  | .int n => Except.ok (decide (page ≤ n))
  | .num q => Except.ok (decide ((page : ℚ) ≤ q))
  | _ => Except.error PyErr.keyval

/-- `orders = data.get("pedido_venda_produto", [])` plus the
dict-wrapping normalisation (line 138); iterating a string yields its
characters, iterating anything else raises. -/
def ordersAsList (v : PyVal) : Except PyErr (List PyVal) :=
  match v with
  | .list l => Except.ok l
  | .dict d => Except.ok [.dict d]
  | .str s => Except.ok (s.data.map (fun c => PyVal.str ⟨[c]⟩))
  | _ => Except.error PyErr.keyval

/-- The body of one successful page attempt (lines 130-176, inside the
retry `try`): read paging info, process the page's orders, fire the
five-page checkpoint, advance the page counter. -/
def processPage (bl : List String) (nfMap : List (String × CleanNF))
    (vmap cmap : List (String × PyVal)) (body : PyVal) (st : RunState) :
    Except Unit RunState :=
  match asDictE body with
  | Except.error _ => Except.error ()
  | Except.ok d =>
      let totalPages := dget d "total_de_paginas" (.int 1)
      match ordersAsList (dget d "pedido_venda_produto" (.list [])) with
      | Except.error _ => Except.error ()
      | Except.ok orders =>
          match processOrders bl nfMap vmap cmap st.acc orders with
          | Except.error _ => Except.error ()
          | Except.ok acc2 =>
              let st2 := { st with acc := acc2, totalPages := totalPages }
              let st3 := if st.page % 5 = 0 then doSave st2 true else st2
              Except.ok { st3 with page := st.page + 1 }

/-- How the pagination loop stopped. -/
inductive ExitMode where
  | normal
  | exn
  | interrupt
  deriving DecidableEq

/-- Result of the inner retry loop for one page. -/
inductive InnerOut where
  | done (script : List PageResp) (st : RunState)
  | interrupted (script : List PageResp) (st : RunState)
  | noFuel (st : RunState)

/-- The inner retry loop (lines 127-186): up to `MAX_RETRIES = 3`
attempts; a caught exception backs off and retries, exhausting the
retries abandons the page and advances; a `KeyboardInterrupt` escapes
to the outer handler.  An exhausted script behaves as a persistently
failing client. -/
def innerLoop (bl : List String) (nfMap : List (String × CleanNF))
    (vmap cmap : List (String × PyVal)) :
    Nat → List PageResp → RunState → Nat → InnerOut
  | 0, _, st, _ => InnerOut.noFuel st
  | fuel + 1, script, st, retries =>
      match script with
      | PageResp.interrupt :: rest => InnerOut.interrupted rest st
      | PageResp.ok body :: rest =>
          (match processPage bl nfMap vmap cmap body st with
           | Except.ok st2 => InnerOut.done rest st2
           | Except.error _ =>
               if 3 ≤ retries + 1 then
                 InnerOut.done rest { st with page := st.page + 1 }
               else innerLoop bl nfMap vmap cmap fuel rest st (retries + 1))
      | PageResp.exn :: rest =>
          if 3 ≤ retries + 1 then
            InnerOut.done rest { st with page := st.page + 1 }
          else innerLoop bl nfMap vmap cmap fuel rest st (retries + 1)
      | [] =>
          if 3 ≤ retries + 1 then
            InnerOut.done [] { st with page := st.page + 1 }
          else innerLoop bl nfMap vmap cmap fuel [] st (retries + 1)

/-- Result of the whole pagination loop. -/
inductive RunOut where
  | finished (st : RunState) (mode : ExitMode)
  | noFuel (st : RunState)

/-- The outer `while page <= total_pages` loop (lines 125-191) with its
`except KeyboardInterrupt` / `except Exception` handlers. -/
def outerLoop (bl : List String) (nfMap : List (String × CleanNF))
    (vmap cmap : List (String × PyVal)) :
    Nat → List PageResp → RunState → RunOut
  | 0, _, st => RunOut.noFuel st
  | fuel + 1, script, st =>
      match pageLE st.page st.totalPages with
      | Except.error _ => RunOut.finished st ExitMode.exn
      | Except.ok false => RunOut.finished st ExitMode.normal
      | Except.ok true =>
          match innerLoop bl nfMap vmap cmap (fuel + 1) script st 0 with
          | InnerOut.noFuel st2 => RunOut.noFuel st2
          | InnerOut.interrupted _ st2 => RunOut.finished st2 ExitMode.interrupt
          | InnerOut.done rest st2 => outerLoop bl nfMap vmap cmap fuel rest st2

/-- `run_extraction` (lines 109-197) from the point the order
pagination starts (the invoice index `nfMap` has been pre-fetched, per
`_fetch_nfe_map` = `indexNfs`): however the loop exits, the `finally`
block performs the final (non-checkpoint) `_save_results` call; a run
that never exits (`noFuel`) never reaches it. -/
def run_extraction (bl : List String) (nfMap : List (String × CleanNF))
    (vmap cmap : List (String × PyVal)) (fuel : Nat) (script : List PageResp)
    (repo0 : RepoState) : RunOut :=
  let st0 : RunState := ⟨⟨[], [], 0, []⟩, 1, .int 1, repo0, []⟩
  match outerLoop bl nfMap vmap cmap fuel script st0 with
  | RunOut.noFuel st => RunOut.noFuel st
  | RunOut.finished st mode => RunOut.finished (doSave st false) mode

/-- The loop state carried by either outcome. -/
def runOutState (r : RunOut) : RunState :=
  match r with
  | RunOut.finished st _ => st
  | RunOut.noFuel st => st

/-- The loop state carried by an inner-retry outcome. -/
def innerOutState (r : InnerOut) : RunState :=
  match r with
  | InnerOut.done _ st => st
  | InnerOut.interrupted _ st => st
  | InnerOut.noFuel st => st

/-! ### Observers used by the claim statements -/

/-- Does this invoice resolve to linkage id `k` and get indexed
(valid: non-empty, non-"0")? -/
def resolvesTo (k : String) (nf : PyVal) : Bool :=
  match nf_resolve_id nf with
  | Except.ok c => decide (c = k) && !(decide (k = "")) && !(decide (k = "0"))
  | Except.error _ => false

/-- Is the order occurrence blocklisted (by its stripped
`codigo_pedido`)? -/
def isBlockedOrder (bl : List String) (o : PyVal) : Bool :=
  match orderHeader o with
  | some (c, _) => bl.contains c
  | Option.none => false

/-- Does the order occurrence get emitted: header readable, not
blocklisted, and cleaning succeeds? -/
def emitsOrder (bl : List String) (nfMap : List (String × CleanNF))
    (vmap cmap : List (String × PyVal)) (o : PyVal) : Bool :=
  match orderHeader o with
  | some (c, _) =>
      !bl.contains c &&
        (match clean_order_data vmap cmap o (nfMapLookup nfMap c) Option.none with
         | Except.ok _ => true
         | Except.error _ => false)
  | Option.none => false

/-- The stripped internal id of an order occurrence. -/
def orderCod (o : PyVal) : Option String :=
  (orderHeader o).map Prod.fst

/-- The blocklist/emission bookkeeping invariant of the extraction
loop: the skipped counter counts exactly the blocklisted occurrences;
the processed-ids buffer lists exactly the emitted occurrences' internal
ids in order; every output-map entry originates from a non-blocklisted
occurrence whose cleaning succeeded; and every such occurrence has its
display number bound in the output map. -/
def accInvariant (bl : List String) (nfMap : List (String × CleanNF))
    (vmap cmap : List (String × PyVal)) (acc : OrderAcc) : Prop :=
  acc.skipped = (acc.seen.filter (isBlockedOrder bl)).length ∧
  acc.ids = (acc.seen.filter (emitsOrder bl nfMap vmap cmap)).filterMap orderCod ∧
  (∀ kv ∈ acc.orders, ∃ o ∈ acc.seen, ∃ c, orderHeader o = some (c, kv.1) ∧
     bl.contains c = false ∧
     clean_order_data vmap cmap o (nfMapLookup nfMap c) Option.none = Except.ok kv.2) ∧
  (∀ o ∈ acc.seen, ∀ c n, orderHeader o = some (c, n) → bl.contains c = false →
     (∃ p, clean_order_data vmap cmap o (nfMapLookup nfMap c) Option.none = Except.ok p) →
     ∃ v, (n, v) ∈ acc.orders)

/-- The `finally` guarantee: the last recorded `_save_results` call of a
finished run is the non-checkpoint save of the final accumulated map
and processed ids (a fuel-exhausted run models one that never exits the
loop). -/
def finalSaveDone (r : RunOut) : Prop :=
  match r with
  | RunOut.finished st _ => st.saves.getLast? = some ⟨st.acc.orders, st.acc.ids, false⟩
  | RunOut.noFuel _ => True

/-- A concrete refined order used by the persistence counterexample:
the cleaning of the empty raw order. -/
def demoPedido : PedidoRefinado :=
  ⟨⟨"N", "", 0, "", 0, "", "", "", "", 0, 0⟩,
   ⟨"N", "N", "N", "", "", "", "N", "N", "N", "N", "", "", "", "", "", ""⟩,
   ⟨0, 0, "Venda Direta", "", "Categoria ", 0, "N", "N", "N", "", ""⟩,
   [], [], ⟨""⟩, ⟨0⟩, ⟨"", "", "", ""⟩, Option.none⟩

/-! ## Theorems -/

/-- C7: the spec says the reference-map loader accepts both persisted
shapes (JSON array of objects and JSON object keyed by id) and
normalizes both to an id-to-value dictionary.  The code does not:
`load_dict` returns the empty dict for a JSON array, so the array
branch of `_load_and_map_vendedores` / `_load_and_map_categorias` is
unreachable and an array-shaped reference file produces an EMPTY map.
This theorem evaluates the loader at an array-shaped file. -/
theorem c7_array_reference_map_yields_empty :
    load_dict (some (PyVal.list [PyVal.dict
        [("codigo_vendedor", PyVal.int 1), ("nome", PyVal.str "Ana")]])) = PyVal.dict [] ∧
    load_and_map_vendedores (some (PyVal.list [PyVal.dict
        [("codigo_vendedor", PyVal.int 1), ("nome", PyVal.str "Ana")]])) = [] ∧
    load_and_map_categorias (some (PyVal.list [PyVal.dict
        [("codigo", PyVal.int 2), ("descricao", PyVal.str "Insumos")]])) = [] :=
  ⟨rfl, rfl, rfl⟩

/-- C8: a response whose fault string is a "no records" variant
(case-insensitively contains "não existem registros") is benign
end-of-pagination — the request logic returns the safe empty result
with zero total pages and an empty record list — while a response with
any other fault string makes the operation raise. -/
theorem c8_no_records_benign_other_faults_fatal :
    ∀ (data : List (String × PyVal)) (v : PyVal),
      dlookup data "faultstring" = some v →
      (strContains (pyLower (pyStr v)) noRecordsPat = true →
        omieRequestLogic data =
          Except.ok [("total_de_paginas", PyVal.int 0), ("registros", PyVal.list [])]) ∧
      (strContains (pyLower (pyStr v)) noRecordsPat = false →
        omieRequestLogic data =
          Except.error ("Omie API Logical Error: " ++ pyStr v)) := by
  intro data v h
  constructor <;> intro hc <;> simp [omieRequestLogic, h, hc]

/-- Witness for C8: a real "no records" fault string (with its
uppercase accented letter) maps to the safe empty page, and a different
fault string raises. -/
theorem c8_witness :
    dlookup [("faultstring",
        PyVal.str "ERROR: Não existem registros para a pagina 1!")] "faultstring" =
      some (PyVal.str "ERROR: Não existem registros para a pagina 1!") ∧
    omieRequestLogic [("faultstring",
        PyVal.str "ERROR: Não existem registros para a pagina 1!")] =
      Except.ok [("total_de_paginas", PyVal.int 0), ("registros", PyVal.list [])] ∧
    omieRequestLogic [("faultstring", PyVal.str "Chave de API invalida")] =
      Except.error ("Omie API Logical Error: " ++ "Chave de API invalida") :=
  ⟨rfl,
   (c8_no_records_benign_other_faults_fatal
      [("faultstring", PyVal.str "ERROR: Não existem registros para a pagina 1!")]
      (PyVal.str "ERROR: Não existem registros para a pagina 1!") rfl).1 (by decide),
   (c8_no_records_benign_other_faults_fatal
      [("faultstring", PyVal.str "Chave de API invalida")]
      (PyVal.str "Chave de API invalida") rfl).2 (by decide)⟩

/-- C10: an invoice whose `det` normalizes to the empty list can never
validate: the verdict has a non-`OK` status, a null validation hash and
at least one discrepancy message, even when the header ids match.
(Quantified over responses with dict-shaped `compl`/`cabecalho`
envelopes — on other shapes the validator raises instead of returning a
verdict.) -/
theorem c10_empty_items_never_ok :
    ∀ (complD cabD : List (String × PyVal)) (detNf detPed : PyVal) (v : Verdict),
      ensure_list detNf = [] →
      validar_integridade (.dict [("compl", .dict complD), ("det", detNf)])
          (.dict [("cabecalho", .dict cabD), ("det", detPed)]) = Except.ok v →
      v.status ≠ "OK" ∧ v.hash_validacao = Option.none ∧ v.erros ≠ [] := by
  intro complD cabD detNf detPed v hdet hok
  unfold validar_integridade at hok
  simp only [dgetE, dget, dlookup, bind, Except.bind, reduceIte, hdet, List.isEmpty_nil,
    String.reduceEq, Option.getD_some, Except.ok.injEq] at hok
  subst hok
  exact ⟨by simp, rfl, by simp⟩

/-- Witness for C10: an itemless invoice whose linkage id matches the
order's id still fails validation with the dedicated message. -/
theorem c10_witness :
    ensure_list (PyVal.list []) = [] ∧
    validar_integridade (.dict [("compl", .dict [("nIdPedido", PyVal.int 5)]), ("det", PyVal.list [])])
        (.dict [("cabecalho", .dict [("codigo_pedido", PyVal.int 5)]), ("det", PyVal.list [])]) =
      Except.ok ⟨"FALHA", ["Nota Fiscal não possui itens (det) para validar"], Option.none⟩ ∧
    ("FALHA" : String) ≠ "OK" :=
  ⟨rfl, rfl,
   (c10_empty_items_never_ok [("nIdPedido", PyVal.int 5)] [("codigo_pedido", PyVal.int 5)]
      (PyVal.list []) (PyVal.list [])
      ⟨"FALHA", ["Nota Fiscal não possui itens (det) para validar"], Option.none⟩
      rfl rfl).1⟩

/-- C1 counterexample: a checkpoint save (`is_checkpoint=True`) with a
non-empty accumulated map and one new processed id REWRITES
'processados.json' (from missing to `["42"]`), so checkpoint writes do
not leave the blocklist unchanged. -/
theorem c1_counterexample :
    (save_results ⟨Option.none, Option.none⟩ [("P1", demoPedido)] ["42"] true).processados =
      some (PyVal.list [PyVal.str "42"]) ∧
    (save_results ⟨Option.none, Option.none⟩ [("P1", demoPedido)] ["42"] true).processados ≠
      (⟨Option.none, Option.none⟩ : RepoState).processados :=
  ⟨rfl, by simp [save_results, update_processed_list, load_filter_set, sortedDedup, insSorted, pyStrip, stripChars]⟩

/-- C1 (amended): `_save_results` treats checkpoint and final saves
identically on persistence — the `is_checkpoint` flag only selects a
log line — and, whenever the accumulated map and the new-ids list are
non-empty, both append the ids to the 'processados.json' blocklist. -/
theorem c1_checkpoint_saves_update_blocklist :
    ∀ (repo : RepoState) (orders : List (String × PedidoRefinado)) (ids : List String),
      save_results repo orders ids true = save_results repo orders ids false ∧
      (orders ≠ [] → ids ≠ [] →
        (save_results repo orders ids true).processados =
          update_processed_list repo.processados ids) := by
  intro repo orders ids
  refine ⟨rfl, fun ho hi => ?_⟩
  simp [save_results, List.isEmpty_eq_true, ho, hi]

/-- Witness for C1: one order and one id make the checkpoint save
rewrite the processed-ids file. -/
theorem c1_witness :
    ([("P1", demoPedido)] : List (String × PedidoRefinado)) ≠ [] ∧
    (["42"] : List String) ≠ [] ∧
    (save_results ⟨Option.none, Option.none⟩ [("P1", demoPedido)] ["42"] true).processados =
      update_processed_list (⟨Option.none, Option.none⟩ : RepoState).processados ["42"] :=
  ⟨by simp, by simp,
   (c1_checkpoint_saves_update_blocklist ⟨Option.none, Option.none⟩
      [("P1", demoPedido)] ["42"]).2 (by simp) (by simp)⟩

/-- C2: however the page loop exits — normal completion (the page
counter passes the total), an exception surfacing at the loop head, or
a user interrupt — the `finally` block performs the final
(non-checkpoint) `_save_results` call on the accumulated output map and
processed ids before `run_extraction` returns. -/
theorem c2_final_save_guaranteed :
    ∀ (bl : List String) (nfMap : List (String × CleanNF))
      (vmap cmap : List (String × PyVal)) (fuel : Nat) (script : List PageResp)
      (repo0 : RepoState),
      finalSaveDone (run_extraction bl nfMap vmap cmap fuel script repo0) := by
  intro bl nfMap vmap cmap fuel script repo0
  unfold run_extraction
  cases houter : outerLoop bl nfMap vmap cmap fuel script ⟨⟨[], [], 0, []⟩, 1, .int 1, repo0, []⟩ with
  | noFuel st => simp [houter, finalSaveDone]
  | finished st mode => simp [houter, finalSaveDone, doSave, List.getLast?_concat]

/-- Half-up quantisation computed from the two-sided bound. -/
theorem quant2_eq_of (q : ℚ) (c : Int) (hq : 0 ≤ q)
    (h1 : (c : ℚ) - 1 / 2 ≤ 100 * q) (h2 : 100 * q < (c : ℚ) + 1 / 2) :
    quant2 q = (c : ℚ) / 100 := by
  unfold quant2 halfUpCents
  rw [if_pos hq]
  have hfl : ⌊q * 100 + 1 / 2⌋ = c := by
    rw [Int.floor_eq_iff]
    constructor
    · linarith
    · linarith
  rw [hfl]

/-- Quantisation moves a value by at most half a cent. -/
theorem quant2_close (q : ℚ) : |quant2 q - q| ≤ 1 / 200 := by
  unfold quant2 halfUpCents
  split
  next h =>
    have h1 := Int.floor_le (q * 100 + 1 / 2)
    have h2 := Int.lt_floor_add_one (q * 100 + 1 / 2)
    rw [abs_le]
    constructor <;> linarith
  next h =>
    have h1 := Int.floor_le (-q * 100 + 1 / 2)
    have h2 := Int.lt_floor_add_one (-q * 100 + 1 / 2)
    rw [abs_le]
    push_cast
    constructor <;> linarith

/-- A quantised value is an exact number of cents. -/
theorem quant2_den (q : ℚ) : (quant2 q * 100).den = 1 := by
  unfold quant2
  rw [div_mul_cancel₀ _ (by norm_num : (100 : ℚ) ≠ 0)]
  exact Rat.den_intCast _

/-- Characterisation of the cent count on non-negative values: it is
the unique integer within half a cent, ties rounding up. -/
theorem halfUpCents_abs_iff (q : ℚ) (c : Int) :
    halfUpCents |q| = c ↔ ((c : ℚ) - 1 / 2 ≤ 100 * |q| ∧ 100 * |q| < (c : ℚ) + 1 / 2) := by
  unfold halfUpCents
  rw [if_pos (abs_nonneg q), Int.floor_eq_iff]
  constructor
  · rintro ⟨a, b⟩
    exact ⟨by linarith, by linarith⟩
  · rintro ⟨a, b⟩
    exact ⟨by linarith, by linarith⟩

/-- Ties round away from zero symmetrically (`ROUND_HALF_UP`). -/
theorem halfUpCents_neg (q : ℚ) : halfUpCents (-q) = -halfUpCents q := by
  unfold halfUpCents
  by_cases h : 0 ≤ q
  · by_cases h2 : 0 ≤ -q
    · have hq : q = 0 := le_antisymm (by linarith) h
      subst hq
      norm_num
    · rw [if_neg h2, if_pos h, neg_neg]
  · rw [if_pos (by linarith : (0 : ℚ) ≤ -q), if_neg h, neg_neg]

/-- Successful context quantisation computed from the two-sided bound
on the cent count, provided the count fits the 28-digit precision. -/
theorem quantizeCtx_eq_of (q : ℚ) (c : Int) (hq : 0 ≤ q)
    (h1 : (c : ℚ) - 1 / 2 ≤ 100 * q) (h2 : 100 * q < (c : ℚ) + 1 / 2)
    (hc : c.natAbs < 10 ^ 28) :
    quantizeCtx q = some ((c : ℚ) / 100) := by
  have hh : halfUpCents q = c := by
    unfold halfUpCents
    rw [if_pos hq, Int.floor_eq_iff]
    exact ⟨by linarith, by linarith⟩
  unfold quantizeCtx quant2
  rw [hh, if_pos hc]

/-- A cent count at or beyond 28 digits makes `quantize` raise
`InvalidOperation`: the caught error path of `_to_decimal`. -/
theorem quantizeCtx_none_of (q : ℚ) (h : 10 ^ 28 ≤ (halfUpCents q).natAbs) :
    quantizeCtx q = Option.none := by
  unfold quantizeCtx
  rw [if_neg (not_lt.mpr h)]

/-- On an integer the cent count is exactly a hundredfold. -/
theorem halfUpCents_int (n : Int) : halfUpCents (n : ℚ) = 100 * n := by
  unfold halfUpCents
  by_cases h : (0 : ℚ) ≤ (n : ℚ)
  · rw [if_pos h, Int.floor_eq_iff]
    constructor
    · push_cast
      linarith
    · push_cast
      linarith
  · rw [if_neg h]
    have hfl : ⌊-(n : ℚ) * 100 + 1 / 2⌋ = -(100 * n) := by
      rw [Int.floor_eq_iff]
      constructor
      · push_cast
        linarith
      · push_cast
        linarith
    rw [hfl, neg_neg]

/-- Integers below the precision threshold are fixed by the
conversion. -/
theorem toDecimal_int_exact (n : Int) (h : n.natAbs < 10 ^ 26) :
    toDecimal (.int n) = (n : ℚ) := by
  have habs : ((100 : Int) * n).natAbs < 10 ^ 28 := by
    rw [Int.natAbs_mul]
    rw [show ((100 : Int)).natAbs = 100 from rfl]
    rw [show (10 : Nat) ^ 28 = 10000000000000000000000000000 from by norm_num]
    rw [show (10 : Nat) ^ 26 = 100000000000000000000000000 from by norm_num] at h
    omega
  show (quantizeCtx (n : ℚ)).getD 0 = (n : ℚ)
  unfold quantizeCtx
  rw [halfUpCents_int, if_pos habs, Option.getD_some]
  unfold quant2
  rw [halfUpCents_int]
  push_cast
  ring

/-- C6, counterexample to the original claim's universal round-trip:
the default `decimal` context carries 28 significant digits, so for the
integer input 10 ^ 30 (beyond 10 ^ 26) `quantize` raises
`InvalidOperation`, the `except` clause catches it, and `_to_decimal`
returns 0.00 — nowhere near the input, although the input is a plain
number `_to_decimal` claims to fix to two decimal digits. -/
theorem c6_counterexample :
    toDecimal (.int (10 ^ 30)) = 0 ∧
      ¬ |toDecimal (.int (10 ^ 30)) - (((10 ^ 30 : Int)) : ℚ)| ≤ 1 / 200 := by
  have h0 : toDecimal (.int (10 ^ 30)) = 0 := by
    show (quantizeCtx ((10 ^ 30 : Int) : ℚ)).getD 0 = 0
    rw [quantizeCtx_none_of]
    · rfl
    · rw [halfUpCents_int]
      have habs : ((100 : Int) * 10 ^ 30).natAbs = 10 ^ 32 := by
        rw [Int.natAbs_mul, Int.natAbs_pow]
        rw [show ((100 : Int)).natAbs = 100 from rfl]
        rw [show ((10 : Int)).natAbs = 10 from rfl]
        norm_num
      rw [habs]
      norm_num
  refine ⟨h0, ?_⟩
  rw [h0, zero_sub, abs_neg, abs_of_nonneg (by push_cast; norm_num)]
  push_cast
  norm_num

/-- C6 (amended): `_to_decimal` maps every value to a fixed-point
decimal with exactly two fraction digits (the result times 100 is an
integer, unconditionally); within the default context precision of 28
digits — cent count below 10 ^ 28, i.e. |value| below 10 ^ 26 — the
result is the half-up (ties away from zero) quantisation of the input,
within half a cent of it, so reading it back reproduces the input to
two decimal digits; once the cent count reaches 10 ^ 28, `quantize`
raises `InvalidOperation` and the caught error path yields 0.00.
`"10"` becomes 10.00, `"10.005"` becomes 10.01, and `None`, the empty
string and non-numeric inputs coerce to 0.00 instead of raising (the
function is total; `decimal.InvalidOperation` is caught as an
`ArithmeticError`). -/
theorem c6_to_decimal_fixed_point :
    (∀ q : ℚ, (halfUpCents q).natAbs < 10 ^ 28 →
       toDecimal (.num q) = quant2 q ∧
       (toDecimal (.num q) * 100).den = 1 ∧ |toDecimal (.num q) - q| ≤ 1 / 200) ∧
    (∀ q : ℚ, 10 ^ 28 ≤ (halfUpCents q).natAbs → toDecimal (.num q) = 0) ∧
    (∀ q : ℚ, (toDecimal (.num q) * 100).den = 1) ∧
    (∀ (q : ℚ) (c : Int), halfUpCents |q| = c ↔
       ((c : ℚ) - 1 / 2 ≤ 100 * |q| ∧ 100 * |q| < (c : ℚ) + 1 / 2)) ∧
    (∀ q : ℚ, halfUpCents (-q) = -halfUpCents q) ∧
    (∀ s : String, match parseDecimal s with
      | some q =>
          ((halfUpCents q).natAbs < 10 ^ 28 →
             toDecimal (.str s) = quant2 q ∧
             (toDecimal (.str s) * 100).den = 1 ∧
             |toDecimal (.str s) - q| ≤ 1 / 200) ∧
          (10 ^ 28 ≤ (halfUpCents q).natAbs → toDecimal (.str s) = 0)
      | Option.none => toDecimal (.str s) = 0) ∧
    (∀ n : Int, n.natAbs < 10 ^ 26 → toDecimal (.int n) = (n : ℚ)) ∧
    toDecimal (.str "10") = 10 ∧
    toDecimal (.str "10.005") = 1001 / 100 ∧
    toDecimal PyVal.none = 0 ∧
    toDecimal (.str "") = 0 ∧
    toDecimal (.str "abc") = 0 ∧
    toDecimal (.list []) = 0 := by
  refine ⟨?_, ?_, ?_, halfUpCents_abs_iff, halfUpCents_neg, ?_,
          toDecimal_int_exact, ?_, ?_, rfl, rfl, rfl, rfl⟩
  · intro q h
    have he : toDecimal (.num q) = quant2 q := by
      show (quantizeCtx q).getD 0 = quant2 q
      unfold quantizeCtx
      rw [if_pos h, Option.getD_some]
    exact ⟨he, he ▸ quant2_den q, he ▸ quant2_close q⟩
  · intro q h
    show (quantizeCtx q).getD 0 = 0
    rw [quantizeCtx_none_of q h]
    rfl
  · intro q
    by_cases h : (halfUpCents q).natAbs < 10 ^ 28
    · have he : toDecimal (.num q) = quant2 q := by
        show (quantizeCtx q).getD 0 = quant2 q
        unfold quantizeCtx
        rw [if_pos h, Option.getD_some]
      rw [he]
      exact quant2_den q
    · have he : toDecimal (.num q) = 0 := by
        show (quantizeCtx q).getD 0 = 0
        rw [quantizeCtx_none_of q (not_lt.mp h)]
        rfl
      rw [he, zero_mul]
      rfl
  · intro s
    cases hp : parseDecimal s with
    | none => by_cases hs : s = "" <;> simp [toDecimal, hs, hp]
    | some q =>
        have hs : s ≠ "" := by
          intro h
          subst h
          rw [show parseDecimal "" = Option.none from rfl] at hp
          cases hp
        have he : toDecimal (.str s) = (quantizeCtx q).getD 0 := by
          simp [toDecimal, hs, hp]
        constructor
        · intro h
          have hq : toDecimal (.str s) = quant2 q := by
            rw [he]
            unfold quantizeCtx
            rw [if_pos h, Option.getD_some]
          exact ⟨hq, hq ▸ quant2_den q, hq ▸ quant2_close q⟩
        · intro h
          rw [he, quantizeCtx_none_of q h]
          rfl
  · have h0 : toDecimal (.str "10") =
        (quantizeCtx (((1 : Int) : ℚ) *
          (((10 : Nat) : ℚ) + ((0 : Nat) : ℚ) / 10 ^ (0 : Nat)))).getD 0 := rfl
    rw [h0, quantizeCtx_eq_of _ 1000 (by norm_num) (by norm_num) (by norm_num)
          (by rw [show ((1000 : Int)).natAbs = 1000 from rfl]; norm_num),
        Option.getD_some]
    norm_num
  · have h0 : toDecimal (.str "10.005") =
        (quantizeCtx (((1 : Int) : ℚ) *
          (((10 : Nat) : ℚ) + ((5 : Nat) : ℚ) / 10 ^ (3 : Nat)))).getD 0 := rfl
    rw [h0, quantizeCtx_eq_of _ 1001 (by norm_num) (by norm_num) (by norm_num)
          (by rw [show ((1001 : Int)).natAbs = 1001 from rfl]; norm_num),
        Option.getD_some]
    norm_num

/-- C6 witness: the amended theorem applied at concrete inputs — an
in-precision rational, an overflowing power of ten, and a small
integer. -/
theorem c6_witness :
    (halfUpCents (5 : ℚ)).natAbs < 10 ^ 28 ∧
    toDecimal (.num 5) = quant2 5 ∧
    toDecimal (.num (10 ^ 30)) = 0 ∧
    toDecimal (.int 3) = ((3 : Int) : ℚ) := by
  have h5 : halfUpCents (5 : ℚ) = 500 := by
    unfold halfUpCents
    rw [if_pos (by norm_num), Int.floor_eq_iff]
    constructor <;> norm_num
  have hbig : halfUpCents ((10 : ℚ) ^ 30) = 10 ^ 32 := by
    unfold halfUpCents
    rw [if_pos (by positivity), Int.floor_eq_iff]
    constructor <;> (push_cast; norm_num)
  have hb5 : (halfUpCents (5 : ℚ)).natAbs < 10 ^ 28 := by
    rw [h5, show ((500 : Int)).natAbs = 500 from rfl]
    norm_num
  have hbb : 10 ^ 28 ≤ (halfUpCents ((10 : ℚ) ^ 30)).natAbs := by
    rw [hbig, Int.natAbs_pow, show ((10 : Int)).natAbs = 10 from rfl]
    norm_num
  exact ⟨hb5, (c6_to_decimal_fixed_point.1 5 hb5).1,
         c6_to_decimal_fixed_point.2.1 (10 ^ 30) hbb,
         c6_to_decimal_fixed_point.2.2.2.2.2.2.1 3
           (by rw [show ((3 : Int)).natAbs = 3 from rfl]; norm_num)⟩

/-- C5: the invoice indexer's linkage resolution and indexing policy:
(a) a valid (non-"0", non-empty) complement-block id is used directly;
(b) an absent/empty/"0" complement id falls back to the first line
item's linkage field; (c) an invoice with no valid linkage id is
skipped without error and without touching the index; (d) when several
invoices resolve to the same order id, the one seen later in fetch
order wins (dict overwrite). -/
theorem c5_invoice_indexer :
    (∀ (nf complV idV : PyVal),
       dgetE nf "compl" (.dict []) = Except.ok complV →
       dgetE complV "nIdPedido" (.str "0") = Except.ok idV →
       pyStrip (pyStr idV) ≠ "0" → pyStrip (pyStr idV) ≠ "" →
       nf_resolve_id nf = Except.ok (pyStrip (pyStr idV))) ∧
    (∀ (nf complV idV d0 : PyVal) (rest : List PyVal) (fidV : PyVal),
       dgetE nf "compl" (.dict []) = Except.ok complV →
       dgetE complV "nIdPedido" (.str "0") = Except.ok idV →
       (pyStrip (pyStr idV) = "0" ∨ pyStrip (pyStr idV) = "") →
       dgetE nf "det" (.list []) = Except.ok (.list (d0 :: rest)) →
       dgetE d0 "nIdPedido" (.str "0") = Except.ok fidV →
       nf_resolve_id nf = Except.ok (pyStrip (pyStr fidV))) ∧
    (∀ (nf : PyVal) (nid : String) (m : List (String × CleanNF)) (rest : List PyVal),
       nf_resolve_id nf = Except.ok nid → (nid = "" ∨ nid = "0") →
       indexNfs (nf :: rest) m = indexNfs rest m) ∧
    (∀ (nfs : List PyVal) (m : List (String × CleanNF)) (k : String),
       (indexNfs nfs m).2 = Option.none →
       nfMapLookup (indexNfs nfs m).1 k =
         (match nfs.reverse.find? (resolvesTo k) with
          | some nf => some (clean_nf_data nf)
          | Option.none => nfMapLookup m k)) := by
  refine ⟨?_, ?_, ?_, ?_⟩
  · intro nf complV idV h1 h2 hz he
    cases nf <;> simp [dgetE] at h1
    next d =>
    cases complV <;> simp [dgetE] at h2
    next d2 =>
    simp [nf_resolve_id, dgetE, bind, Except.bind, h1, h2, hz, he]
  · intro nf complV idV d0 rest fidV h1 h2 hz h3 h4
    cases nf <;> simp [dgetE] at h1 h3
    next d =>
    cases complV <;> simp [dgetE] at h2
    next d2 =>
    cases d0 <;> simp [dgetE] at h4
    next d3 =>
    rcases hz with hz | hz <;>
      simp [nf_resolve_id, dgetE, bind, Except.bind, h1, h2, h3, h4, hz]
  · intro nf nid m rest hres hz
    rcases hz with hz | hz <;> subst hz <;> simp [indexNfs, hres]
  · intro nfs
    induction nfs with
    | nil => intro m k h; simp [indexNfs]
    | cons nf rest ih =>
        intro m k h
        cases hres : nf_resolve_id nf with
        | error e =>
            simp only [indexNfs, hres] at h
            simp at h
        | ok nid =>
            simp only [indexNfs, hres] at h ⊢
            by_cases hv : nid ≠ "" ∧ nid ≠ "0"
            · rw [if_pos (by simp [hv.1, hv.2])] at h ⊢
              rw [ih _ _ h]
              rw [List.reverse_cons, List.find?_append]
              cases hfind : rest.reverse.find? (resolvesTo k) with
              | some nf2 => simp
              | none =>
                  simp only [Option.none_or]
                  by_cases hk : nid = k
                  · subst hk
                    have : resolvesTo nid nf = true := by
                      simp [resolvesTo, hres, hv.1, hv.2]
                    simp [this, nfMapLookup]
                  · have : resolvesTo k nf = false := by
                      simp [resolvesTo, hres]
                      intro hkk
                      exact absurd hkk hk
                    simp [this, nfMapLookup, hk]
            · have hv2 : nid = "" ∨ nid = "0" := by
                by_cases h1 : nid = ""
                · exact Or.inl h1
                · right
                  by_contra h2
                  exact hv ⟨h1, h2⟩
              rw [if_neg (by rcases hv2 with h1 | h1 <;> simp [h1])] at h ⊢
              rw [ih _ _ h]
              rw [List.reverse_cons, List.find?_append]
              have : resolvesTo k nf = false := by
                simp [resolvesTo, hres]
                intro hkk
                subst hkk
                rcases hv2 with h1 | h1 <;> simp [h1]
              simp [this]

/-- Witness for C5: a direct linkage, a first-item fallback, a skipped
invoice with no valid id, and two invoices linked to order "7" where
the later one wins. -/
theorem c5_witness :
    nf_resolve_id (.dict [("compl", .dict [("nIdPedido", PyVal.int 123)]), ("det", PyVal.list [])]) =
      Except.ok "123" ∧
    nf_resolve_id (.dict [("compl", .dict [("nIdPedido", PyVal.str "0")]),
        ("det", PyVal.list [.dict [("nIdPedido", PyVal.int 55)]])]) = Except.ok "55" ∧
    indexNfs [.dict [("compl", .dict []), ("det", PyVal.list [])]] [] = indexNfs [] [] ∧
    nfMapLookup (indexNfs [.dict [("compl", .dict [("nIdPedido", PyVal.int 7)]),
                                  ("ide", .dict [("nNF", PyVal.str "A")])],
                           .dict [("compl", .dict [("nIdPedido", PyVal.int 7)]),
                                  ("ide", .dict [("nNF", PyVal.str "B")])]] []).1 "7" =
      (match [PyVal.dict [("compl", .dict [("nIdPedido", PyVal.int 7)]),
                          ("ide", .dict [("nNF", PyVal.str "A")])],
              PyVal.dict [("compl", .dict [("nIdPedido", PyVal.int 7)]),
                          ("ide", .dict [("nNF", PyVal.str "B")])]].reverse.find? (resolvesTo "7") with
       | some nf => some (clean_nf_data nf)
       | Option.none => nfMapLookup [] "7") :=
  ⟨c5_invoice_indexer.1
      (.dict [("compl", .dict [("nIdPedido", PyVal.int 123)]), ("det", PyVal.list [])])
      (.dict [("nIdPedido", PyVal.int 123)]) (PyVal.int 123) rfl rfl (by decide) (by decide),
   c5_invoice_indexer.2.1
      (.dict [("compl", .dict [("nIdPedido", PyVal.str "0")]),
              ("det", PyVal.list [.dict [("nIdPedido", PyVal.int 55)]])])
      (.dict [("nIdPedido", PyVal.str "0")]) (PyVal.str "0")
      (.dict [("nIdPedido", PyVal.int 55)]) [] (PyVal.int 55)
      rfl rfl (Or.inl rfl) rfl rfl,
   c5_invoice_indexer.2.2.1
      (.dict [("compl", .dict []), ("det", PyVal.list [])]) "0" [] [] rfl (Or.inr rfl),
   c5_invoice_indexer.2.2.2
      [.dict [("compl", .dict [("nIdPedido", PyVal.int 7)]),
              ("ide", .dict [("nNF", PyVal.str "A")])],
       .dict [("compl", .dict [("nIdPedido", PyVal.int 7)]),
              ("ide", .dict [("nNF", PyVal.str "B")])]] [] "7" rfl⟩

theorem sha256hex_length (s : String) : (sha256hex s).length = 64 := by
  simp [sha256hex, sha256hexBytes, wordHex, String.length, List.length_append]

theorem sha256hex_ne_empty (s : String) : sha256hex s ≠ "" := by
  intro h
  have h2 := congrArg String.length h
  rw [sha256hex_length] at h2
  simp [String.length] at h2

theorem gerar_hash_cases : ∀ nf p it pd,
    (∃ s, gerar_hash_item nf p it pd = Except.ok (sha256hex s)) ∨
    gerar_hash_item nf p it pd = Except.error PyErr.attr := by
  intro nf p it pd
  simp only [gerar_hash_item, bind, Except.bind, dgetE]
  repeat' split
  all_goals first
    | (left; exact ⟨_, rfl⟩)
    | (right
       rename_i heq
       split at heq <;> (cases heq; try rfl))

theorem gerar_hash_not_keyval : ∀ nf p it pd,
    gerar_hash_item nf p it pd ≠ Except.error PyErr.keyval := by
  intro nf p it pd h
  rcases gerar_hash_cases nf p it pd with ⟨s, hs⟩ | hs <;> rw [hs] at h <;> cases h

theorem gerar_hash_ok_ne_empty : ∀ nf p it pd h,
    gerar_hash_item nf p it pd = Except.ok h → h ≠ "" := by
  intro nf p it pd h hh
  rcases gerar_hash_cases nf p it pd with ⟨s, hs⟩ | hs <;> rw [hs] at hh
  · cases hh
    exact sha256hex_ne_empty _
  · cases hh

theorem findMatch_spec : ∀ (nf pedido it : PyVal) (ps : List PyVal) (r : Option String),
    findMatch nf pedido it ps = Except.ok r →
    (match ps.find? (itemMatches it) with
     | some p => ∃ h, gerar_hash_item nf pedido it p = Except.ok h ∧ r = some h
     | Option.none => r = Option.none) := by
  intro nf pedido it ps
  induction ps with
  | nil =>
      intro r h
      cases h
      simp
  | cons p rest ih =>
      intro r h
      cases hm : itemMatchRaw it p with
      | error e =>
          cases e with
          | attr =>
              simp only [findMatch, hm] at h
              simp at h
          | keyval =>
              simp only [findMatch, hm] at h
              have hf : itemMatches it p = false := by simp [itemMatches, hm]
              simp only [List.find?_cons, hf, cond_false]
              exact ih r h
      | ok b =>
          cases b with
          | false =>
              simp only [findMatch, hm] at h
              have hf : itemMatches it p = false := by simp [itemMatches, hm]
              simp only [List.find?_cons, hf, cond_false]
              exact ih r h
          | true =>
              simp only [findMatch, hm] at h
              have hf : itemMatches it p = true := by simp [itemMatches, hm]
              simp only [List.find?_cons, hf, cond_true]
              cases hg : gerar_hash_item nf pedido it p with
              | ok hh =>
                  rw [hg] at h
                  cases h
                  exact ⟨hh, rfl, rfl⟩
              | error e =>
                  cases e with
                  | keyval => exact absurd hg (gerar_hash_not_keyval _ _ _ _)
                  | attr =>
                      rw [hg] at h
                      cases h

theorem validarLoop_spec : ∀ (nf pedido : PyVal) (pedItems : List PyVal)
    (items : List PyVal) (erros0 : List String) (m0 : Nat) (u0 : String)
    (res : List String × Nat × String),
    validarLoop nf pedido pedItems items erros0 m0 u0 = Except.ok res →
    res.2.1 = m0 + items.countP (fun it => (pedItems.find? (itemMatches it)).isSome) ∧
    res.1 = erros0 ++ items.filterMap (fun it =>
        if (pedItems.find? (itemMatches it)).isSome then (Option.none : Option String)
        else match itemName it with
             | Except.ok nome => some ("Item NF " ++ nome ++ " não encontrado no Pedido")
             | Except.error _ => Option.none) ∧
    (∀ it ∈ items, (pedItems.find? (itemMatches it)) = Option.none →
        ∃ nome, itemName it = Except.ok nome) ∧
    ((∀ it ∈ items, (pedItems.find? (itemMatches it)).isSome) →
        (items = [] → res.2.2 = u0) ∧
        (∀ itL, items.getLast? = some itL →
           ∃ p h, pedItems.find? (itemMatches itL) = some p ∧
             gerar_hash_item nf pedido itL p = Except.ok h ∧ res.2.2 = h)) := by
  intro nf pedido pedItems items
  induction items with
  | nil =>
      intro erros0 m0 u0 res h
      cases h
      refine ⟨by simp, by simp, by simp, fun _ => ⟨fun _ => rfl, by simp⟩⟩
  | cons it rest ih =>
      intro erros0 m0 u0 res h
      cases hfm : findMatch nf pedido it pedItems with
      | error e =>
          simp only [validarLoop, hfm] at h
          simp at h
      | ok ro =>
          have hspec := findMatch_spec nf pedido it pedItems ro hfm
          cases ro with
          | some hh =>
              simp only [validarLoop, hfm] at h
              have ihres := ih _ _ _ _ h
              cases hfind : pedItems.find? (itemMatches it) with
              | none =>
                  rw [hfind] at hspec
                  cases hspec
              | some p =>
                  rw [hfind] at hspec
                  obtain ⟨h2, hg2, hr2⟩ := hspec
                  injection hr2 with hr3
                  subst hr3
                  refine ⟨?_, ?_, ?_, ?_⟩
                  · rw [ihres.1]
                    simp only [List.countP_cons, hfind, Option.isSome_some, if_pos]
                    omega
                  · rw [ihres.2.1]
                    simp only [List.filterMap_cons, hfind, Option.isSome_some, if_true]
                  · intro it2 hit2 hf2
                    cases hit2 with
                    | head =>
                        rw [hf2] at hfind
                        cases hfind
                    | tail _ htail => exact ihres.2.2.1 it2 htail hf2
                  · intro hall
                    refine ⟨(fun hcontr => by cases hcontr), ?_⟩
                    intro itL hlast
                    cases rest with
                    | nil =>
                        simp only [List.getLast?_singleton, Option.some.injEq] at hlast
                        subst hlast
                        cases h
                        exact ⟨p, hh, hfind, hg2, rfl⟩
                    | cons r2 rs2 =>
                        rw [List.getLast?_cons_cons] at hlast
                        have hall2 : ∀ it2 ∈ (r2 :: rs2),
                            (pedItems.find? (itemMatches it2)).isSome := by
                          intro it2 hit2
                          exact hall it2 (List.mem_cons_of_mem _ hit2)
                        exact (ihres.2.2.2 hall2).2 itL hlast
          | none =>
              -- unmatched invoice item: the name is extracted and a message appended
              have hnone : pedItems.find? (itemMatches it) = Option.none := by
                cases hfind : pedItems.find? (itemMatches it) with
                | none => rfl
                | some p =>
                    rw [hfind] at hspec
                    obtain ⟨h2, hg2, hr2⟩ := hspec
                    cases hr2
              cases hnm : itemName it with
              | error e =>
                  simp only [validarLoop, hfm, hnm] at h
                  simp at h
              | ok nome =>
                  simp only [validarLoop, hfm, hnm] at h
                  have ihres := ih _ _ _ _ h
                  refine ⟨?_, ?_, ?_, ?_⟩
                  · rw [ihres.1]
                    simp only [List.countP_cons, hnone, Option.isSome_none,
                      Bool.false_eq_true, if_neg, not_false_iff]
                    omega
                  · rw [ihres.2.1]
                    simp only [List.filterMap_cons, hnone, Option.isSome_none, hnm]
                    simp
                  · intro it2 hit2 hf2
                    cases hit2 with
                    | head => exact ⟨nome, hnm⟩
                    | tail _ htail => exact ihres.2.2.1 it2 htail hf2
                  · intro hall
                    exfalso
                    have := hall it (List.mem_cons_self _ _)
                    rw [hnone] at this
                    cases this

/-- C4 (amended): the integrity validator matches every invoice line
item against the order's items by string-equal product code, quantity
within 0.001 and unit price within 0.01, taking the first compatible
order item; each unmatched invoice item yields a discrete message
naming it; the status is `OK` iff the invoice has at least one item AND
every item matched AND the header ids agree (the amendment adds the
non-empty-items conjunct); and a non-empty SHA-256 hash — that of the
last item's first-match pair — is attached exactly when the status is
`OK`.  (Envelope dicts are quantified structurally; other envelope
shapes raise instead of returning a verdict.) -/
theorem c4_integrity_validator :
    ∀ (complD cabD : List (String × PyVal)) (nfItems pedItems : List PyVal) (v : Verdict),
      validar_integridade (PyVal.dict [("compl", PyVal.dict complD), ("det", PyVal.list nfItems)])
          (PyVal.dict [("cabecalho", PyVal.dict cabD), ("det", PyVal.list pedItems)]) =
        Except.ok v →
      ((v.status = "OK") ↔
        (nfItems ≠ [] ∧
         pyStr (dget complD "nIdPedido" (PyVal.str "")) =
           pyStr (dget cabD "codigo_pedido" (PyVal.str "")) ∧
         ∀ it ∈ nfItems, ∃ p ∈ pedItems, itemMatches it p = true)) ∧
      (v.hash_validacao.isSome ↔ v.status = "OK") ∧
      (∀ h, v.hash_validacao = some h → h ≠ "") ∧
      (∀ it ∈ nfItems, (∀ p ∈ pedItems, itemMatches it p = false) →
        ∃ nome, itemName it = Except.ok nome ∧
          ("Item NF " ++ nome ++ " não encontrado no Pedido") ∈ v.erros) ∧
      (v.status = "OK" → ∀ itL, nfItems.getLast? = some itL →
        ∃ p h2, pedItems.find? (itemMatches itL) = some p ∧
          gerar_hash_item
              (PyVal.dict [("compl", PyVal.dict complD), ("det", PyVal.list nfItems)])
              (PyVal.dict [("cabecalho", PyVal.dict cabD), ("det", PyVal.list pedItems)])
              itL p = Except.ok h2 ∧
          v.hash_validacao = some h2) := by
  intro complD cabD nfItems pedItems v hok
  unfold validar_integridade at hok
  simp only [dgetE, dget, dlookup, bind, Except.bind, reduceIte, String.reduceEq,
    Option.getD_some, ensure_list] at hok
  cases nfItems with
  | nil =>
      simp only [List.isEmpty_nil, if_true, Except.ok.injEq] at hok
      subst hok
      refine ⟨by simp, by simp, by simp, by simp, by simp⟩
  | cons it0 nfRest =>
      simp only [List.isEmpty_cons, if_false, Bool.false_eq_true] at hok
      cases hloop : validarLoop
          (PyVal.dict [("compl", PyVal.dict complD), ("det", PyVal.list (it0 :: nfRest))])
          (PyVal.dict [("cabecalho", PyVal.dict cabD), ("det", PyVal.list pedItems)])
          pedItems (it0 :: nfRest)
          (if pyStr ((dlookup complD "nIdPedido").getD (PyVal.str "")) ≠
              pyStr ((dlookup cabD "codigo_pedido").getD (PyVal.str "")) then
            ["Divergência de ID Pedido: NF(" ++
                pyStr ((dlookup complD "nIdPedido").getD (PyVal.str "")) ++ ") vs Pedido(" ++
                pyStr ((dlookup cabD "codigo_pedido").getD (PyVal.str "")) ++ ")"]
          else []) 0 "" with
      | error e =>
          rw [hloop] at hok
          simp at hok
      | ok lres =>
          simp only [hloop] at hok
          obtain ⟨hcount, herrs, hnames, hhash⟩ := validarLoop_spec _ _ _ _ _ _ _ _ hloop
          have hAllIff : (lres.2.1 = (it0 :: nfRest).length) ↔
              ∀ it ∈ (it0 :: nfRest), (pedItems.find? (itemMatches it)).isSome = true := by
            rw [hcount, Nat.zero_add]
            exact List.countP_eq_length
          have hFMnil : (∀ it ∈ (it0 :: nfRest),
              (pedItems.find? (itemMatches it)).isSome = true) →
              ((it0 :: nfRest).filterMap (fun it =>
                if (pedItems.find? (itemMatches it)).isSome then (Option.none : Option String)
                else match itemName it with
                     | Except.ok nome =>
                         some ("Item NF " ++ nome ++ " não encontrado no Pedido")
                     | Except.error _ => Option.none)) = [] := by
            intro hall
            rw [List.filterMap_eq_nil_iff]
            intro it hit
            simp [hall it hit]
          have hFMnil2 : ((it0 :: nfRest).filterMap (fun it =>
                if (pedItems.find? (itemMatches it)).isSome then (Option.none : Option String)
                else match itemName it with
                     | Except.ok nome =>
                         some ("Item NF " ++ nome ++ " não encontrado no Pedido")
                     | Except.error _ => Option.none)) = [] →
              ∀ it ∈ (it0 :: nfRest), (pedItems.find? (itemMatches it)).isSome = true := by
            intro hnil it hit
            by_contra hnotm
            have hfnone : pedItems.find? (itemMatches it) = Option.none := by
              cases hf : pedItems.find? (itemMatches it) with
              | none => rfl
              | some p => rw [hf] at hnotm; simp at hnotm
            obtain ⟨nome, hnome⟩ := hnames it hit hfnone
            rw [List.filterMap_eq_nil_iff] at hnil
            have := hnil it hit
            rw [hfnone, hnome] at this
            simp at this
          have hcondIff : (lres.2.1 = (it0 :: nfRest).length ∧ lres.1.isEmpty = true) ↔
              (pyStr ((dlookup complD "nIdPedido").getD (PyVal.str "")) =
                 pyStr ((dlookup cabD "codigo_pedido").getD (PyVal.str "")) ∧
               ∀ it ∈ (it0 :: nfRest), ∃ p ∈ pedItems, itemMatches it p = true) := by
            constructor
            · rintro ⟨hc, he⟩
              have hall := hAllIff.mp hc
              rw [List.isEmpty_eq_true] at he
              rw [herrs] at he
              rcases List.append_eq_nil.mp he with ⟨he0, _⟩
              constructor
              · by_contra hid
                rw [if_pos hid] at he0
                cases he0
              · intro it hit
                have := hall it hit
                rw [Option.isSome_iff_exists] at this
                obtain ⟨p, hp⟩ := this
                exact ⟨p, List.mem_of_find?_eq_some hp, List.find?_some hp⟩
            · rintro ⟨hid, hall⟩
              have hall2 : ∀ it ∈ (it0 :: nfRest),
                  (pedItems.find? (itemMatches it)).isSome = true := by
                intro it hit
                obtain ⟨p, hp, hm⟩ := hall it hit
                exact List.find?_isSome.mpr ⟨p, hp, hm⟩
              refine ⟨hAllIff.mpr hall2, ?_⟩
              rw [List.isEmpty_eq_true, herrs, List.append_eq_nil]
              exact ⟨by rw [if_neg (by simp [hid])], hFMnil hall2⟩
          by_cases hcond : lres.2.1 = (it0 :: nfRest).length ∧ lres.1.isEmpty = true
          · rw [if_pos hcond] at hok
            injection hok with hok
            subst hok
            have hids := (hcondIff.mp hcond).1
            have hallm := (hcondIff.mp hcond).2
            have hall2 : ∀ it ∈ (it0 :: nfRest),
                (pedItems.find? (itemMatches it)).isSome = true := by
              intro it hit
              obtain ⟨p, hp, hm⟩ := hallm it hit
              exact List.find?_isSome.mpr ⟨p, hp, hm⟩
            refine ⟨?_, ?_, ?_, ?_, ?_⟩
            · simp only [dget, true_iff]
              exact ⟨by simp, hids, hallm⟩
            · simp
            · intro h hh
              simp only [Option.some.injEq] at hh
              obtain ⟨itL, hL⟩ := Option.isSome_iff_exists.mp
                (List.getLast?_isSome.mpr (by simp) :
                  ((it0 :: nfRest).getLast?).isSome = true)
              obtain ⟨p, h2, _, hg, heq⟩ := (hhash hall2).2 itL hL
              rw [← hh, heq]
              exact gerar_hash_ok_ne_empty _ _ _ _ _ hg
            · intro it hit hnm
              exfalso
              obtain ⟨p, hp, hm⟩ := hallm it hit
              rw [hnm p hp] at hm
              cases hm
            · intro _ itL hL
              obtain ⟨p, h2, hf, hg, heq⟩ := (hhash hall2).2 itL hL
              exact ⟨p, h2, hf, hg, by rw [heq]⟩
          · rw [if_neg hcond] at hok
            injection hok with hok
            subst hok
            refine ⟨?_, by simp, by simp, ?_, by simp⟩
            · simp only [dget, String.reduceEq, false_iff]
              rintro ⟨-, hids, hallm⟩
              exact hcond (hcondIff.mpr ⟨hids, hallm⟩)
            · intro it hit hnm
              have hfnone : pedItems.find? (itemMatches it) = Option.none :=
                List.find?_eq_none.mpr (fun p hp => by simp [hnm p hp])
              obtain ⟨nome, hnome⟩ := hnames it hit hfnone
              refine ⟨nome, hnome, ?_⟩
              rw [herrs]
              refine List.mem_append_right _ ?_
              rw [List.mem_filterMap]
              exact ⟨it, hit, by rw [hfnone, hnome]; simp⟩

/-- C4 counterexample: the claim's unrestricted "OK iff every invoice
item found a match and no header mismatch" fails on an invoice with an
empty `det` and matching header ids — every (vacuous) item found a
match and the ids agree, yet the status is `FALHA`. -/
theorem c4_counterexample :
    validar_integridade
        (.dict [("compl", .dict [("nIdPedido", PyVal.int 5)]), ("det", PyVal.list [])])
        (.dict [("cabecalho", .dict [("codigo_pedido", PyVal.int 5)]), ("det", PyVal.list [])]) =
      Except.ok ⟨"FALHA", ["Nota Fiscal não possui itens (det) para validar"], Option.none⟩ ∧
    ¬(("FALHA" : String) = "OK" ↔
        (pyStr (dget [("nIdPedido", PyVal.int 5)] "nIdPedido" (PyVal.str "")) =
           pyStr (dget [("codigo_pedido", PyVal.int 5)] "codigo_pedido" (PyVal.str "")) ∧
         ∀ it ∈ ([] : List PyVal), ∃ p ∈ ([] : List PyVal), itemMatches it p = true)) := by
  refine ⟨rfl, fun hiff => ?_⟩
  have : ("FALHA" : String) = "OK" := hiff.mpr ⟨by decide, by simp⟩
  simp at this

/-- Witness for C4: an invoice with one item `A1` against an order with
no items returns a `FALHA` verdict carrying the discrete
"Item NF A1 não encontrado no Pedido" message. -/
theorem c4_witness :
    validar_integridade
        (.dict [("compl", .dict [("nIdPedido", PyVal.int 9)]),
                ("det", PyVal.list [.dict [("prod", .dict [("cProd", PyVal.str "A1")])]])])
        (.dict [("cabecalho", .dict [("codigo_pedido", PyVal.int 9)]), ("det", PyVal.list [])]) =
      Except.ok ⟨"FALHA", ["Item NF A1 não encontrado no Pedido"], Option.none⟩ ∧
    (∃ nome, itemName (.dict [("prod", .dict [("cProd", PyVal.str "A1")])]) = Except.ok nome ∧
       ("Item NF " ++ nome ++ " não encontrado no Pedido") ∈
         (⟨"FALHA", ["Item NF A1 não encontrado no Pedido"], Option.none⟩ : Verdict).erros) :=
  ⟨rfl,
   (c4_integrity_validator [("nIdPedido", PyVal.int 9)] [("codigo_pedido", PyVal.int 9)]
      [.dict [("prod", .dict [("cProd", PyVal.str "A1")])]] []
      ⟨"FALHA", ["Item NF A1 não encontrado no Pedido"], Option.none⟩
      rfl).2.2.2.1
     (.dict [("prod", .dict [("cProd", PyVal.str "A1")])]) (by simp)
     (fun p hp => by simp at hp)⟩

/-- One per-order step preserves the bookkeeping invariant. -/
theorem processOrder_inv : ∀ (bl : List String) (nfMap : List (String × CleanNF))
    (vmap cmap : List (String × PyVal)) (acc acc2 : OrderAcc) (o : PyVal),
    accInvariant bl nfMap vmap cmap acc →
    processOrder bl nfMap vmap cmap acc o = Except.ok acc2 →
    accInvariant bl nfMap vmap cmap acc2 := by
  intro bl nfMap vmap cmap acc acc2 o hinv hstep
  obtain ⟨hskip, hids, hmap, hcomp⟩ := hinv
  cases hhd : orderHeader o with
  | none =>
      simp only [processOrder, hhd] at hstep
      exact absurd hstep (by simp)
  | some cn =>
      obtain ⟨cod, num⟩ := cn
      simp only [processOrder, hhd] at hstep
      by_cases hbl : bl.contains cod
      · rw [if_pos hbl] at hstep
        injection hstep with hstep
        subst hstep
        have hblk : isBlockedOrder bl o = true := by
          simp only [isBlockedOrder, hhd]
          exact hbl
        have hemit : emitsOrder bl nfMap vmap cmap o = false := by
          simp only [emitsOrder, hhd, hbl, Bool.not_true, Bool.false_and]
        refine ⟨?_, ?_, ?_, ?_⟩
        · simp [List.filter_append, hblk, hskip]
        · simp [List.filter_append, hemit, hids]
        · intro kv hkv
          obtain ⟨o2, ho2, hrest⟩ := hmap kv hkv
          exact ⟨o2, List.mem_append_left _ ho2, hrest⟩
        · intro o2 ho2 c n hh2 hc2 hcl2
          rcases List.mem_append.mp ho2 with h2 | h2
          · exact hcomp o2 h2 c n hh2 hc2 hcl2
          · simp at h2
            subst h2
            rw [hhd] at hh2
            injection hh2 with hh2
            cases hh2
            rw [hbl] at hc2
            cases hc2
      · rw [if_neg hbl] at hstep
        rw [Bool.not_eq_true] at hbl
        cases hcl : clean_order_data vmap cmap o (nfMapLookup nfMap cod) Option.none with
        | ok limpos =>
            rw [hcl] at hstep
            injection hstep with hstep
            subst hstep
            have hblk : isBlockedOrder bl o = false := by
              simp only [isBlockedOrder, hhd]
              exact hbl
            have hemit : emitsOrder bl nfMap vmap cmap o = true := by
              simp only [emitsOrder, hhd, hbl, hcl, Bool.not_false, Bool.true_and]
            refine ⟨?_, ?_, ?_, ?_⟩
            · simp [List.filter_append, hblk, hskip]
            · simp [List.filter_append, hemit, hids, orderCod, hhd]
            · intro kv hkv
              rcases List.mem_cons.mp hkv with h2 | h2
              · subst h2
                exact ⟨o, List.mem_append_right _ (by simp), cod, hhd, hbl, hcl⟩
              · obtain ⟨o2, ho2, hrest⟩ := hmap kv h2
                exact ⟨o2, List.mem_append_left _ ho2, hrest⟩
            · intro o2 ho2 c n hh2 hc2 hcl2
              rcases List.mem_append.mp ho2 with h2 | h2
              · obtain ⟨v2, hv2⟩ := hcomp o2 h2 c n hh2 hc2 hcl2
                exact ⟨v2, List.mem_cons_of_mem _ hv2⟩
              · simp at h2
                subst h2
                rw [hhd] at hh2
                injection hh2 with hh2
                cases hh2
                exact ⟨limpos, List.mem_cons_self _ _⟩
        | error e =>
            rw [hcl] at hstep
            injection hstep with hstep
            subst hstep
            have hblk : isBlockedOrder bl o = false := by
              simp only [isBlockedOrder, hhd]
              exact hbl
            have hemit : emitsOrder bl nfMap vmap cmap o = false := by
              simp only [emitsOrder, hhd, hbl, hcl, Bool.not_false, Bool.true_and]
            refine ⟨?_, ?_, ?_, ?_⟩
            · simp [List.filter_append, hblk, hskip]
            · simp [List.filter_append, hemit, hids]
            · intro kv hkv
              obtain ⟨o2, ho2, hrest⟩ := hmap kv hkv
              exact ⟨o2, List.mem_append_left _ ho2, hrest⟩
            · intro o2 ho2 c n hh2 hc2 hcl2
              rcases List.mem_append.mp ho2 with h2 | h2
              · exact hcomp o2 h2 c n hh2 hc2 hcl2
              · simp at h2
                subst h2
                rw [hhd] at hh2
                injection hh2 with hh2
                cases hh2
                obtain ⟨p, hp⟩ := hcl2
                rw [hcl] at hp
                cases hp

theorem processOrders_inv : ∀ (bl : List String) (nfMap : List (String × CleanNF))
    (vmap cmap : List (String × PyVal)) (orders : List PyVal) (acc acc2 : OrderAcc),
    accInvariant bl nfMap vmap cmap acc →
    processOrders bl nfMap vmap cmap acc orders = Except.ok acc2 →
    accInvariant bl nfMap vmap cmap acc2 := by
  intro bl nfMap vmap cmap orders
  induction orders with
  | nil =>
      intro acc acc2 hinv h
      cases h
      exact hinv
  | cons o rest ih =>
      intro acc acc2 hinv h
      cases hstep : processOrder bl nfMap vmap cmap acc o with
      | error e =>
          simp only [processOrders, hstep] at h
          exact absurd h (by simp)
      | ok accm =>
          simp only [processOrders, hstep] at h
          exact ih accm acc2 (processOrder_inv bl nfMap vmap cmap acc accm o hinv hstep) h

theorem processPage_inv : ∀ (bl : List String) (nfMap : List (String × CleanNF))
    (vmap cmap : List (String × PyVal)) (body : PyVal) (st st2 : RunState),
    accInvariant bl nfMap vmap cmap st.acc →
    processPage bl nfMap vmap cmap body st = Except.ok st2 →
    accInvariant bl nfMap vmap cmap st2.acc := by
  intro bl nfMap vmap cmap body st st2 hinv h
  unfold processPage at h
  cases hd : asDictE body with
  | error e => rw [hd] at h; cases h
  | ok d =>
      rw [hd] at h
      cases ho : ordersAsList (dget d "pedido_venda_produto" (.list [])) with
      | error e => simp only [ho] at h; cases h
      | ok orders =>
          simp only [ho] at h
          cases hpo : processOrders bl nfMap vmap cmap st.acc orders with
          | error e => simp only [hpo] at h; cases h
          | ok acc2 =>
              simp only [hpo] at h
              have hinv2 := processOrders_inv bl nfMap vmap cmap orders st.acc acc2 hinv hpo
              injection h with h
              subst h
              by_cases hck : st.page % 5 = 0 <;> simp [hck, doSave] <;> exact hinv2

theorem innerLoop_inv : ∀ (bl : List String) (nfMap : List (String × CleanNF))
    (vmap cmap : List (String × PyVal)) (fuel : Nat) (script : List PageResp)
    (st : RunState) (retries : Nat),
    accInvariant bl nfMap vmap cmap st.acc →
    accInvariant bl nfMap vmap cmap
      (innerOutState (innerLoop bl nfMap vmap cmap fuel script st retries)).acc := by
  intro bl nfMap vmap cmap fuel
  induction fuel with
  | zero => intro script st retries hinv; exact hinv
  | succ n ih =>
      intro script st retries hinv
      cases script with
      | nil =>
          simp only [innerLoop]
          by_cases hr : 3 ≤ retries + 1
          · rw [if_pos hr]
            exact hinv
          · rw [if_neg hr]
            exact ih [] st (retries + 1) hinv
      | cons resp rest =>
          cases resp with
          | interrupt => exact hinv
          | exn =>
              simp only [innerLoop]
              by_cases hr : 3 ≤ retries + 1
              · rw [if_pos hr]
                exact hinv
              · rw [if_neg hr]
                exact ih rest st (retries + 1) hinv
          | ok body =>
              simp only [innerLoop]
              cases hpp : processPage bl nfMap vmap cmap body st with
              | ok st2 =>
                  exact processPage_inv bl nfMap vmap cmap body st st2 hinv hpp
              | error e =>
                  by_cases hr : 3 ≤ retries + 1
                  · rw [if_pos hr]
                    exact hinv
                  · rw [if_neg hr]
                    exact ih rest st (retries + 1) hinv

theorem outerLoop_inv : ∀ (bl : List String) (nfMap : List (String × CleanNF))
    (vmap cmap : List (String × PyVal)) (fuel : Nat) (script : List PageResp)
    (st : RunState),
    accInvariant bl nfMap vmap cmap st.acc →
    accInvariant bl nfMap vmap cmap
      (runOutState (outerLoop bl nfMap vmap cmap fuel script st)).acc := by
  intro bl nfMap vmap cmap fuel
  induction fuel with
  | zero => intro script st hinv; exact hinv
  | succ n ih =>
      intro script st hinv
      simp only [outerLoop]
      cases hle : pageLE st.page st.totalPages with
      | error e => exact hinv
      | ok b =>
          cases b with
          | false => exact hinv
          | true =>
              have hin := innerLoop_inv bl nfMap vmap cmap (n + 1) script st 0 hinv
              cases hil : innerLoop bl nfMap vmap cmap (n + 1) script st 0 with
              | noFuel st2 =>
                  rw [hil] at hin
                  exact hin
              | interrupted s2 st2 =>
                  rw [hil] at hin
                  exact hin
              | done s2 st2 =>
                  rw [hil] at hin
                  exact ih s2 st2 hin

/-- C3 (amended): across every run of the extraction loop — whatever
the script of page responses, including retries, failures and
interrupts — the skipped counter counts exactly the blocklisted order
occurrences, the processed-ids buffer lists exactly the emitted
(non-blocklisted, successfully cleaned) occurrences' internal ids, every
output-map entry originates from such an occurrence keyed by its
display number, and every such occurrence is bound in the output map:
blocklisted orders are never emitted and never processed further. -/
theorem c3_blocklist_and_emission :
    ∀ (bl : List String) (nfMap : List (String × CleanNF))
      (vmap cmap : List (String × PyVal)) (fuel : Nat) (script : List PageResp)
      (repo0 : RepoState),
      accInvariant bl nfMap vmap cmap
        (runOutState (run_extraction bl nfMap vmap cmap fuel script repo0)).acc := by
  intro bl nfMap vmap cmap fuel script repo0
  have h0 : accInvariant bl nfMap vmap cmap
      (⟨⟨[], [], 0, []⟩, 1, .int 1, repo0, []⟩ : RunState).acc := by
    refine ⟨rfl, rfl, ?_, ?_⟩
    · intro kv hkv
      cases hkv
    · intro o ho
      cases ho
  have hout := outerLoop_inv bl nfMap vmap cmap fuel script _ h0
  cases houter : outerLoop bl nfMap vmap cmap fuel script ⟨⟨[], [], 0, []⟩, 1, .int 1, repo0, []⟩ with
  | noFuel st =>
      rw [houter] at hout
      simpa [run_extraction, houter, runOutState, doSave] using hout
  | finished st mode =>
      rw [houter] at hout
      simpa [run_extraction, houter, runOutState, doSave] using hout

/-- C3 counterexample: the claim's "every order not in the blocklist is
emitted to the output exactly once per run" fails when cleaning raises:
a non-blocklisted order whose `cabecalho.codigo_cliente` is the
non-numeric string "abc" makes `int()` raise inside
`clean_order_data`; the per-order handler swallows the error, so the
order is iterated but never emitted — empty output map, empty
processed-ids buffer. -/
theorem c3_counterexample :
    isBlockedOrder []
      (.dict [("cabecalho", .dict [("codigo_pedido", PyVal.str "77"),
                                   ("codigo_cliente", PyVal.str "abc")])]) = false ∧
    (runOutState (run_extraction [] [] [] [] 10
        [PageResp.ok (.dict [("pedido_venda_produto", PyVal.list
          [.dict [("cabecalho", .dict [("codigo_pedido", PyVal.str "77"),
                                       ("codigo_cliente", PyVal.str "abc")])]])])]
        ⟨Option.none, Option.none⟩)).acc.seen =
      [.dict [("cabecalho", .dict [("codigo_pedido", PyVal.str "77"),
                                   ("codigo_cliente", PyVal.str "abc")])]] ∧
    (runOutState (run_extraction [] [] [] [] 10
        [PageResp.ok (.dict [("pedido_venda_produto", PyVal.list
          [.dict [("cabecalho", .dict [("codigo_pedido", PyVal.str "77"),
                                       ("codigo_cliente", PyVal.str "abc")])]])])]
        ⟨Option.none, Option.none⟩)).acc.ids = [] ∧
    (runOutState (run_extraction [] [] [] [] 10
        [PageResp.ok (.dict [("pedido_venda_produto", PyVal.list
          [.dict [("cabecalho", .dict [("codigo_pedido", PyVal.str "77"),
                                       ("codigo_cliente", PyVal.str "abc")])]])])]
        ⟨Option.none, Option.none⟩)).acc.orders = [] :=
  ⟨rfl, rfl, rfl, rfl⟩

/-! ### C9 — text normalisation lemmas -/

theorem alookup_mem : ∀ (t : List (Char × List Char)) (c : Char) (v : List Char),
    alookup t c = some v → (c, v) ∈ t := by
  intro t
  induction t with
  | nil => intro c v h; cases h
  | cons e rest ih =>
      intro c v h
      obtain ⟨k, w⟩ := e
      simp only [alookup] at h
      by_cases hk : k = c
      · rw [if_pos hk] at h
        injection h with h
        subst h hk
        exact List.mem_cons_self _ _
      · rw [if_neg hk] at h
        exact List.mem_cons_of_mem _ (ih c v h)

theorem decompTable_out_ok :
    decompTable.all (fun e => (e.2.filter (fun d => !isCombining d)).all
      (fun d => (upperList d).all outOk)) = true := by decide

theorem upperTable_out_ok :
    upperTable.all (fun e =>
      (alookup decompTable e.1).isSome || e.2.all outOk) = true := by decide

theorem upperAll_all_outOk : ∀ (m : List Char),
    (∀ d ∈ m, (upperList d).all outOk = true) → (upperAll m).all outOk = true := by
  intro m
  induction m with
  | nil => intro _; rfl
  | cons d rest ih =>
      intro h
      show ((upperList d ++ upperAll rest).all outOk) = true
      simp only [List.all_append, Bool.and_eq_true]
      exact ⟨h d (by simp), ih (fun d2 hd2 => h d2 (by simp [hd2]))⟩

theorem pipe_char_ok : ∀ c : Char,
    (upperAll (stripCombining (decompose c))).all outOk = true := by
  intro c
  cases halo : alookup decompTable c with
  | some l =>
      have hmem := alookup_mem decompTable c l halo
      have := List.all_eq_true.mp decompTable_out_ok _ hmem
      show (upperAll ((decompose c).filter (fun d => !isCombining d))).all outOk = true
      rw [show decompose c = l by simp [decompose, halo]]
      apply upperAll_all_outOk
      intro d hd
      exact List.all_eq_true.mp this d hd
  | none =>
      show (upperAll ((decompose c).filter (fun d => !isCombining d))).all outOk = true
      rw [show decompose c = [c] by simp [decompose, halo]]
      by_cases hcomb : isCombining c
      · simp [stripCombining, hcomb, upperAll]
      · rw [show List.filter (fun d => !isCombining d) [c] = [c] from by simp [hcomb]]
        apply upperAll_all_outOk
        intro d hd
        rw [List.mem_singleton] at hd
        subst hd
        cases halo2 : alookup upperTable d with
        | some u =>
            have hmem := alookup_mem upperTable d u halo2
            have h2 := List.all_eq_true.mp upperTable_out_ok _ hmem
            simp only [halo, Option.isSome_none, Bool.false_or] at h2
            rw [show upperList d = u by simp [upperList, halo2]]
            exact h2
        | none =>
            rw [show upperList d = [d] by simp [upperList, halo2]]
            simp only [List.all_cons, List.all_nil, Bool.and_true]
            simp [outOk, halo, halo2, hcomb]

theorem decompAll_cons (c : Char) (l : List Char) :
    decompAll (c :: l) = decompose c ++ decompAll l := rfl

theorem upperAll_cons (c : Char) (l : List Char) :
    upperAll (c :: l) = upperList c ++ upperAll l := rfl

theorem pipe_all_outOk : ∀ l : List Char,
    (upperAll (stripCombining (decompAll l))).all outOk = true := by
  intro l
  induction l with
  | nil => rfl
  | cons c rest ih =>
      rw [decompAll_cons]
      show (upperAll ((decompose c ++ decompAll rest).filter (fun d => !isCombining d))).all
        outOk = true
      rw [List.filter_append]
      show (upperAll (stripCombining (decompose c) ++ stripCombining (decompAll rest))).all
        outOk = true
      have happ : ∀ m1 m2 : List Char, upperAll (m1 ++ m2) = upperAll m1 ++ upperAll m2 := by
        intro m1
        induction m1 with
        | nil => intro m2; rfl
        | cons d r ihm =>
            intro m2
            rw [List.cons_append, upperAll_cons, upperAll_cons, ihm, List.append_assoc]
      rw [happ, List.all_append]
      simp only [Bool.and_eq_true]
      exact ⟨pipe_char_ok c, ih⟩

theorem upperAll_append : ∀ m1 m2 : List Char,
    upperAll (m1 ++ m2) = upperAll m1 ++ upperAll m2 := by
  intro m1
  induction m1 with
  | nil => intro m2; rfl
  | cons d r ihm =>
      intro m2
      rw [List.cons_append, upperAll_cons, upperAll_cons, ihm, List.append_assoc]

theorem outOk_fix : ∀ c : Char, outOk c = true →
    decompose c = [c] ∧ isCombining c = false ∧ upperList c = [c] := by
  intro c h
  simp only [outOk, Bool.and_eq_true, Option.isNone_iff_eq_none, Bool.not_eq_true] at h
  obtain ⟨⟨h1, h2⟩, h3⟩ := h
  exact ⟨by simp [decompose, h1], by simpa using h2, by simp [upperList, h3]⟩

theorem pipe_fix : ∀ l : List Char, l.all outOk = true →
    upperAll (stripCombining (decompAll l)) = l := by
  intro l
  induction l with
  | nil => intro _; rfl
  | cons c rest ih =>
      intro h
      simp only [List.all_cons, Bool.and_eq_true] at h
      obtain ⟨hc, hrest⟩ := h
      obtain ⟨hd, hcomb, hu⟩ := outOk_fix c hc
      rw [decompAll_cons, hd]
      show upperAll ((([c] : List Char) ++ decompAll rest).filter (fun d => !isCombining d)) =
        c :: rest
      rw [List.filter_append]
      rw [show ([c] : List Char).filter (fun d => !isCombining d) = [c] from by simp [hcomb]]
      show upperAll ([c] ++ stripCombining (decompAll rest)) = c :: rest
      rw [upperAll_append]
      rw [show upperAll [c] = upperList c ++ [] from rfl, hu]
      simpa using ih hrest

theorem splitWsAux_shift : ∀ (w : List Char) (t cur : List Char),
    w.all (fun c => !isPySpace c) = true →
    splitWsAux (w ++ t) cur = splitWsAux t (w.reverse ++ cur) := by
  intro w
  induction w with
  | nil => intro t cur _; rfl
  | cons c w2 ih =>
      intro t cur h
      simp only [List.all_cons, Bool.and_eq_true] at h
      obtain ⟨hc, hw⟩ := h
      have hc2 : isPySpace c = false := by simpa using hc
      show splitWsAux (c :: (w2 ++ t)) cur = _
      simp only [splitWsAux, hc2, Bool.false_eq_true, if_false]
      rw [ih t (c :: cur) hw]
      congr 1
      simp

theorem splitWsAux_good : ∀ (l cur : List Char),
    cur.all (fun c => !isPySpace c) = true →
    ∀ w ∈ splitWsAux l cur, w ≠ [] ∧ w.all (fun c => !isPySpace c) = true := by
  intro l
  induction l with
  | nil =>
      intro cur hcur w hw
      simp only [splitWsAux] at hw
      split at hw
      · cases hw
      · next hne =>
        simp only [List.mem_singleton] at hw
        subst hw
        refine ⟨?_, by simpa using hcur⟩
        intro hrev
        rw [List.reverse_eq_nil_iff] at hrev
        subst hrev
        simp at hne
  | cons c rest ih =>
      intro cur hcur w hw
      simp only [splitWsAux] at hw
      by_cases hsp : isPySpace c
      · rw [if_pos hsp] at hw
        split at hw
        · exact ih [] rfl w hw
        · next hne =>
          rcases List.mem_cons.mp hw with h2 | h2
          · subst h2
            refine ⟨?_, by simpa using hcur⟩
            intro hrev
            rw [List.reverse_eq_nil_iff] at hrev
            subst hrev
            simp at hne
          · exact ih [] rfl w h2
      · rw [if_neg hsp] at hw
        refine ih (c :: cur) ?_ w hw
        simp only [List.all_cons, Bool.and_eq_true]
        exact ⟨by simpa using hsp, hcur⟩

theorem splitWsAux_mem : ∀ (l cur : List Char) (w : List Char),
    w ∈ splitWsAux l cur → ∀ c ∈ w, c ∈ l ∨ c ∈ cur := by
  intro l
  induction l with
  | nil =>
      intro cur w hw c hc
      simp only [splitWsAux] at hw
      split at hw
      · cases hw
      · simp only [List.mem_singleton] at hw
        subst hw
        right
        exact List.mem_reverse.mp hc
  | cons c0 rest ih =>
      intro cur w hw c hc
      simp only [splitWsAux] at hw
      by_cases hsp : isPySpace c0
      · rw [if_pos hsp] at hw
        split at hw
        · rcases ih [] w hw c hc with h2 | h2
          · exact Or.inl (List.mem_cons_of_mem _ h2)
          · cases h2
        · rcases List.mem_cons.mp hw with h2 | h2
          · subst h2
            right
            exact List.mem_reverse.mp hc
          · rcases ih [] w h2 c hc with h3 | h3
            · exact Or.inl (List.mem_cons_of_mem _ h3)
            · cases h3
      · rw [if_neg hsp] at hw
        rcases ih (c0 :: cur) w hw c hc with h2 | h2
        · exact Or.inl (List.mem_cons_of_mem _ h2)
        · rcases List.mem_cons.mp h2 with h3 | h3
          · subst h3
            exact Or.inl (List.mem_cons_self _ _)
          · exact Or.inr h3

theorem splitWs_joinWords : ∀ ws : List (List Char),
    (∀ w ∈ ws, w ≠ [] ∧ w.all (fun c => !isPySpace c) = true) →
    splitWs (joinWords ws) = ws := by
  intro ws
  induction ws with
  | nil => intro _; rfl
  | cons w ws2 ih =>
      intro h
      obtain ⟨hw1, hw2⟩ := h w (List.mem_cons_self _ _)
      cases ws2 with
      | nil =>
          show splitWsAux w [] = [w]
          have := splitWsAux_shift w [] [] hw2
          rw [List.append_nil] at this
          rw [this]
          simp only [splitWsAux, List.append_nil]
          rw [if_neg (by simpa [List.isEmpty_eq_true, List.reverse_eq_nil_iff] using hw1)]
          simp
      | cons w2 ws3 =>
          show splitWsAux (w ++ ' ' :: joinWords (w2 :: ws3)) [] = w :: (w2 :: ws3)
          rw [splitWsAux_shift w _ [] hw2, List.append_nil]
          simp only [splitWsAux, show isPySpace ' ' = true from rfl, if_true]
          rw [if_neg (by simpa [List.isEmpty_eq_true, List.reverse_eq_nil_iff] using hw1)]
          rw [List.reverse_reverse]
          congr 1
          exact ih (fun w3 hw3 => h w3 (List.mem_cons_of_mem _ hw3))

theorem joinWords_all : ∀ (ws : List (List Char)) (P : Char → Bool),
    (∀ w ∈ ws, w.all P = true) → P ' ' = true → (joinWords ws).all P = true := by
  intro ws P
  induction ws with
  | nil => intro _ _; rfl
  | cons w ws2 ih =>
      intro h hsp
      cases ws2 with
      | nil => exact h w (List.mem_cons_self _ _)
      | cons w2 ws3 =>
          show ((w ++ ' ' :: joinWords (w2 :: ws3)).all P) = true
          simp only [List.all_append, List.all_cons, Bool.and_eq_true]
          exact ⟨h w (List.mem_cons_self _ _), hsp,
            by simpa using ih (fun w3 hw3 => h w3 (List.mem_cons_of_mem _ hw3)) hsp⟩

theorem joinWords_ne_nil : ∀ ws : List (List Char),
    ws ≠ [] → (∀ w ∈ ws, w ≠ []) → joinWords ws ≠ [] := by
  intro ws hne h
  cases ws with
  | nil => exact absurd rfl hne
  | cons w ws2 =>
      cases ws2 with
      | nil => exact h w (List.mem_cons_self _ _)
      | cons w2 ws3 =>
          show w ++ ' ' :: joinWords (w2 :: ws3) ≠ []
          simp

theorem joinWords_head : ∀ (w : List Char) (ws : List (List Char)),
    w ≠ [] → (joinWords (w :: ws)).head? = w.head? := by
  intro w ws hw
  cases ws with
  | nil => rfl
  | cons w2 ws3 =>
      show (w ++ ' ' :: joinWords (w2 :: ws3)).head? = w.head?
      cases w with
      | nil => exact absurd rfl hw
      | cons c w' => rfl

theorem noDouble_cons_nonspace : ∀ (c : Char) (t : List Char),
    isPySpace c = false → noDouble t = true → noDouble (c :: t) = true := by
  intro c t hc ht
  cases t with
  | nil => rfl
  | cons d r =>
      show (!(isPySpace c && isPySpace d) && noDouble (d :: r)) = true
      simp [hc, ht]

theorem noDouble_of_nonspace : ∀ l : List Char,
    l.all (fun c => !isPySpace c) = true → noDouble l = true := by
  intro l
  induction l with
  | nil => intro _; rfl
  | cons c r ih =>
      intro h
      simp only [List.all_cons, Bool.and_eq_true] at h
      exact noDouble_cons_nonspace c r (by simpa using h.1) (ih h.2)

theorem noDouble_append_word : ∀ (w t : List Char),
    w.all (fun c => !isPySpace c) = true → noDouble t = true → noDouble (w ++ t) = true := by
  intro w
  induction w with
  | nil => intro t _ ht; exact ht
  | cons c w2 ih =>
      intro t h ht
      simp only [List.all_cons, Bool.and_eq_true] at h
      exact noDouble_cons_nonspace c (w2 ++ t) (by simpa using h.1) (ih t h.2 ht)

theorem joinWords_noDouble : ∀ ws : List (List Char),
    (∀ w ∈ ws, w ≠ [] ∧ w.all (fun c => !isPySpace c) = true) →
    noDouble (joinWords ws) = true := by
  intro ws
  induction ws with
  | nil => intro _; rfl
  | cons w ws2 ih =>
      intro h
      obtain ⟨hw1, hw2⟩ := h w (List.mem_cons_self _ _)
      cases ws2 with
      | nil => exact noDouble_of_nonspace w hw2
      | cons w2 ws3 =>
          show noDouble (w ++ ' ' :: joinWords (w2 :: ws3)) = true
          apply noDouble_append_word w _ hw2
          obtain ⟨hw21, hw22⟩ := h w2 (List.mem_cons_of_mem _ (List.mem_cons_self _ _))
          have hrest := ih (fun w3 hw3 => h w3 (List.mem_cons_of_mem _ hw3))
          have hhead := joinWords_head w2 ws3 hw21
          cases hj : joinWords (w2 :: ws3) with
          | nil => rfl
          | cons j0 jr =>
              show (!(isPySpace ' ' && isPySpace j0) && noDouble (j0 :: jr)) = true
              rw [hj] at hrest hhead
              have hj0 : isPySpace j0 = false := by
                cases w2 with
                | nil => exact absurd rfl hw21
                | cons c2 w2' =>
                    simp only [List.head?_cons, Option.some.injEq] at hhead
                    subst hhead
                    simp only [List.all_cons, Bool.and_eq_true] at hw22
                    simpa using hw22.1
              simp [hj0, hrest]

theorem joinWords_getLast : ∀ (ws : List (List Char)) (c : Char),
    (∀ w ∈ ws, w ≠ [] ∧ w.all (fun c => !isPySpace c) = true) →
    (joinWords ws).getLast? = some c → isPySpace c = false := by
  intro ws
  induction ws with
  | nil => intro c _ h; cases h
  | cons w ws2 ih =>
      intro c h hlast
      obtain ⟨hw1, hw2⟩ := h w (List.mem_cons_self _ _)
      cases ws2 with
      | nil =>
          have hmem : c ∈ w := List.mem_of_mem_getLast? hlast
          have := List.all_eq_true.mp hw2 c hmem
          simpa using this
      | cons w2 ws3 =>
          have hj : joinWords (w :: w2 :: ws3) = w ++ ' ' :: joinWords (w2 :: ws3) := rfl
          rw [hj] at hlast
          have hne : joinWords (w2 :: ws3) ≠ [] :=
            joinWords_ne_nil _ (by simp)
              (fun w3 hw3 => (h w3 (List.mem_cons_of_mem _ hw3)).1)
          rw [List.getLast?_append_of_ne_nil w (by simp)] at hlast
          cases hjj : joinWords (w2 :: ws3) with
          | nil => exact absurd hjj hne
          | cons j0 jr =>
              rw [hjj, List.getLast?_cons_cons] at hlast
              apply ih c (fun w3 hw3 => h w3 (List.mem_cons_of_mem _ hw3))
              rw [hjj]
              exact hlast

theorem joinWords_noExtra : ∀ ws : List (List Char),
    (∀ w ∈ ws, w ≠ [] ∧ w.all (fun c => !isPySpace c) = true) →
    noExtraSpace (joinWords ws) = true := by
  intro ws h
  unfold noExtraSpace
  simp only [Bool.and_eq_true]
  refine ⟨⟨?_, ?_⟩, joinWords_noDouble ws h⟩
  · cases ws with
    | nil => rfl
    | cons w ws2 =>
        obtain ⟨hw1, hw2⟩ := h w (List.mem_cons_self _ _)
        rw [joinWords_head w ws2 hw1]
        cases w with
        | nil => exact absurd rfl hw1
        | cons c w' =>
            simp only [List.head?_cons]
            simp only [List.all_cons, Bool.and_eq_true] at hw2
            exact hw2.1
  · cases hlast : (joinWords ws).getLast? with
    | none => rfl
    | some c =>
        have := joinWords_getLast ws c h hlast
        simpa using this

theorem normalizar_data : ∀ t : String,
    (normalizar_texto t).data =
      if t.data.isEmpty then []
      else joinWords (splitWs (upperAll (stripCombining (decompAll t.data)))) := by
  intro t
  unfold normalizar_texto
  split
  · rfl
  · rfl

/-- C9: `normalizar_texto` is idempotent, and its output carries no
leading or trailing whitespace, no two adjacent whitespace characters,
no lowercase letter (no character with an uppercase mapping) and no
combining accent mark. -/
theorem c9_normalizar_idempotent_tidy :
    ∀ s : String,
      normalizar_texto (normalizar_texto s) = normalizar_texto s ∧
      noExtraSpace (normalizar_texto s).data = true ∧
      ∀ c ∈ (normalizar_texto s).data, isLowerE c = false ∧ isCombining c = false := by
  intro s
  by_cases hs : s.data.isEmpty
  · rw [show normalizar_texto s = "" from by simp [normalizar_texto, hs]]
    refine ⟨rfl, by decide, ?_⟩
    intro c hc
    simp [show ("" : String).data = [] from rfl] at hc
  · have hdata : (normalizar_texto s).data =
        joinWords (splitWs (upperAll (stripCombining (decompAll s.data)))) := by
      simp [normalizar_texto, hs]
    have hgood : ∀ w ∈ splitWs (upperAll (stripCombining (decompAll s.data))),
        w ≠ [] ∧ w.all (fun c => !isPySpace c) = true :=
      fun w hw => splitWsAux_good _ [] rfl w hw
    have hLok : (upperAll (stripCombining (decompAll s.data))).all outOk = true :=
      pipe_all_outOk s.data
    have hwordsOk : ∀ w ∈ splitWs (upperAll (stripCombining (decompAll s.data))),
        w.all outOk = true := by
      intro w hw
      rw [List.all_eq_true]
      intro c hc
      rcases splitWsAux_mem _ [] w hw c hc with h2 | h2
      · exact List.all_eq_true.mp hLok c h2
      · cases h2
    have hmOk : (joinWords (splitWs (upperAll (stripCombining (decompAll s.data))))).all
        outOk = true :=
      joinWords_all _ outOk hwordsOk (by decide)
    refine ⟨?_, ?_, ?_⟩
    · apply String.ext
      rw [normalizar_data (normalizar_texto s), hdata]
      by_cases hm : (joinWords (splitWs (upperAll (stripCombining (decompAll s.data))))).isEmpty
      · rw [if_pos hm]
        rw [List.isEmpty_iff] at hm
        rw [hm]
      · rw [if_neg hm]
        rw [pipe_fix _ hmOk, splitWs_joinWords _ hgood]
    · rw [hdata]
      exact joinWords_noExtra _ hgood
    · intro c hc
      rw [hdata] at hc
      have hout := List.all_eq_true.mp hmOk c hc
      simp only [outOk, Bool.and_eq_true, Option.isNone_iff_eq_none, Bool.not_eq_true] at hout
      obtain ⟨⟨h1, h2⟩, h3⟩ := hout
      constructor
      · simp [isLowerE, h3]
      · simpa using h2
